import Mathlib

/-!
Formal model of the RAG (retrieval-augmented generation) core of the
backend: the Postgres-backed repository (`app/repositories/rag_repository.py`),
the embedding client (`app/services/rag/embedding_service.py`), the ingestion
pipeline (`app/services/rag/ingestion_service.py`), the chat agent
(`app/services/rag/chat_agent.py`) and the service facade
(`app/services/rag/rag_service.py`).

The relational store is modelled as an in-memory `Db` value; the external
collaborators (embedding provider, chat provider, file conversion, text
splitting, tokenizer, file hashing, filesystem, and the store's vector
cosine-distance operator) are parameters, since the Python code calls them
through narrow interfaces.  Machine floats are modelled as `ℚ`, with `none`
standing for the IEEE `NaN` produced by a zero-magnitude cosine comparison.
-/

/-! ## Generic helpers -/

/-- Python `str.strip()` emptiness: `not text.strip()` is true exactly when
every character of the text is whitespace. -/
def strBlank (s : String) : Bool := s.data.all (fun c => c.isWhitespace)

/-- Code-point lexicographic comparison of character lists; this is the order
Python's `sorted(..., key=lambda x: x["name"])` and SQL `ORDER BY file_name`
use on the names appearing here. -/
def lexLEb : List Char → List Char → Bool
  | [], _ => true
  | _ :: _, [] => false
  | a :: as, b :: bs => a.toNat < b.toNat || (a.toNat = b.toNat && lexLEb as bs)

theorem lexLEb_total : ∀ a b, lexLEb a b = true ∨ lexLEb b a = true := by
  intro a
  induction a with
  | nil => intro b; left; rfl
  | cons x xs ih =>
    intro b
    cases b with
    | nil => right; rfl
    | cons y ys =>
      simp only [lexLEb, Bool.or_eq_true, Bool.and_eq_true, decide_eq_true_eq]
      rcases Nat.lt_trichotomy x.toNat y.toNat with h | h | h
      · exact Or.inl (Or.inl h)
      · rcases ih ys with h2 | h2
        · exact Or.inl (Or.inr ⟨h, h2⟩)
        · exact Or.inr (Or.inr ⟨h.symm, h2⟩)
      · exact Or.inr (Or.inl h)

theorem lexLEb_trans :
    ∀ a b c, lexLEb a b = true → lexLEb b c = true → lexLEb a c = true := by
  intro a
  induction a with
  | nil => intro b c _ _; rfl
  | cons x xs ih =>
    intro b c hab hbc
    cases b with
    | nil => simp [lexLEb] at hab
    | cons y ys =>
      cases c with
      | nil => simp [lexLEb] at hbc
      | cons z zs =>
        simp only [lexLEb, Bool.or_eq_true, Bool.and_eq_true,
          decide_eq_true_eq] at hab hbc ⊢
        rcases hab with h1 | ⟨h1, h2⟩ <;> rcases hbc with h3 | ⟨h3, h4⟩
        · exact Or.inl (Nat.lt_trans h1 h3)
        · exact Or.inl (h3 ▸ h1)
        · exact Or.inl (h1 ▸ h3)
        · exact Or.inr ⟨h1.trans h3, ih ys zs h2 h4⟩

/-- Order on the `NaN`-aware distance values returned by the store's cosine
operator: `none` models `NaN`, which Postgres treats as larger than every
real value when ordering. -/
def distLEb : Option ℚ → Option ℚ → Bool
  | _, none => true
  | none, some _ => false
  | some a, some b => decide (a ≤ b)

theorem distLEb_total : ∀ a b, distLEb a b = true ∨ distLEb b a = true := by
  intro a b
  cases a with
  | none => cases b with
    | none => left; rfl
    | some bv => right; rfl
  | some av =>
    cases b with
    | none => left; rfl
    | some bv =>
      simp only [distLEb, decide_eq_true_eq]
      exact le_total av bv

theorem distLEb_trans :
    ∀ a b c, distLEb a b = true → distLEb b c = true → distLEb a c = true := by
  intro a b c hab hbc
  match a, b, c with
  | _, _, none => simp [distLEb]
  | none, none, some cv => exact hbc
  | none, some bv, some cv => exact absurd hab (by simp [distLEb])
  | some av, none, some cv => exact absurd hbc (by simp [distLEb])
  | some av, some bv, some cv =>
    simp only [distLEb, decide_eq_true_eq] at hab hbc ⊢
    exact le_trans hab hbc

/-- The similarity `1 - x` selected by the vector-search SQL, written with an
explicit numerator and denominator (the denominator of `1 - x` equals that of
`x`) so that concrete instances evaluate by kernel reduction;
`oneSub_eq` identifies it with `1 - x`. -/
def oneSub (x : ℚ) : ℚ :=
  ⟨(x.den : ℤ) - x.num, x.den, x.den_nz, by
    have h : IsCoprime (x.num) (x.den : ℤ) := by
      rw [Int.isCoprime_iff_gcd_eq_one]; exact x.reduced
    have h2 : IsCoprime ((x.den : ℤ) - x.num) (x.den : ℤ) := by
      have h3 := (h.neg_left).add_mul_left_left 1
      simpa [sub_eq_neg_add] using h3
    rw [Int.isCoprime_iff_gcd_eq_one] at h2
    exact h2⟩

theorem oneSub_eq (x : ℚ) : oneSub x = 1 - x := by
  have hd : (x.den : ℚ) ≠ 0 := by
    exact_mod_cast x.den_nz
  rw [oneSub, Rat.mk'_eq_divInt, Rat.divInt_eq_div]
  push_cast
  rw [sub_div, div_self hd, Rat.num_div_den]

/-! ## Data model (`app/models/postgres/rag.py`)

Identifiers are UUIDs in the source; the model draws them from a counter
`Db.nextId`.  The JSONB metadata maps and the timestamp columns play no role
in any claim and are omitted. -/

/-- A row of `rag_documents`. -/
structure Doc where
  id : Nat
  fileName : String
  filePath : String
  fileType : String
  fileSize : Nat
  fileHash : String
  folderPath : String
  markdownContent : Option String
  status : String
  errorMessage : Option String
  deriving DecidableEq

/-- A row of `rag_chunks`; `embedding` is the nullable 768-dimension vector. -/
structure Chunk where
  id : Nat
  docId : Nat
  chunkIndex : Nat
  content : String
  tokenCount : Nat
  embedding : Option (List ℚ)
  deriving DecidableEq

/-- A row of `rag_conversations`. -/
structure Conversation where
  id : Nat
  title : Option String
  folderPath : Option String
  isActive : Bool
  deriving DecidableEq

/-- A row of `rag_messages`; `sources` is the list of chunk ids recorded on
an assistant message. -/
structure Message where
  id : Nat
  convId : Nat
  sequence : Nat
  role : String
  content : String
  sources : List Nat
  tokenCount : Option Nat
  deriving DecidableEq

/-- The relational store state. -/
structure Db where
  documents : List Doc
  chunks : List Chunk
  conversations : List Conversation
  messages : List Message
  nextId : Nat
  deriving DecidableEq

def emptyDb : Db := ⟨[], [], [], [], 0⟩

/-! ## Repository (`app/repositories/rag_repository.py`) -/

/-- `RagRepository.create_document`: insert a new document row and return it. -/
def create_document (db : Db) (fileName filePath fileType : String)
    (fileSize : Nat) (fileHash folderPath : String)
    (markdownContent : Option String) (status : String) : Db × Doc :=
  let d : Doc :=
    { id := db.nextId, fileName := fileName, filePath := filePath,
      fileType := fileType, fileSize := fileSize, fileHash := fileHash,
      folderPath := folderPath, markdownContent := markdownContent,
      status := status, errorMessage := none }
  ({ db with documents := db.documents ++ [d], nextId := db.nextId + 1 }, d)

/-- `RagRepository.get_document_by_name` (the `file_name` column is unique). -/
def get_document_by_name (db : Db) (fileName : String) : Option Doc :=
  db.documents.find? (fun d => d.fileName = fileName)

/-- `RagRepository.delete_document`: deleting a document cascades to its
chunks (`RagDocument.chunks` has `cascade="all, delete-orphan"` and the chunk
foreign key is `ondelete="CASCADE"`). -/
def delete_document (db : Db) (docId : Nat) : Db × Bool :=
  if db.documents.any (fun d => d.id = docId) then
    ({ db with
        documents := db.documents.filter (fun d => ¬ d.id = docId),
        chunks := db.chunks.filter (fun c => ¬ c.docId = docId) }, true)
  else (db, false)

/-- `RagRepository.update_document_status`. -/
def update_document_status (db : Db) (docId : Nat) (status : String)
    (errorMessage : Option String) : Db :=
  { db with
      documents := db.documents.map (fun d =>
        if d.id = docId then { d with status := status, errorMessage := errorMessage }
        else d) }

/-- `RagRepository.update_document_content`. -/
def update_document_content (db : Db) (docId : Nat) (content : String) : Db :=
  { db with
      documents := db.documents.map (fun d =>
        if d.id = docId then { d with markdownContent := some content } else d) }

/-- Data for one chunk row, as assembled by `IngestionService._chunk_markdown`
before the batch insert. -/
structure ChunkData where
  docId : Nat
  chunkIndex : Nat
  content : String
  tokenCount : Nat
  embedding : Option (List ℚ)
  deriving DecidableEq

/-- `RagRepository.create_chunks_batch`: insert all chunk rows as one batch. -/
def create_chunks_batch (db : Db) (chunksData : List ChunkData) : Db :=
  chunksData.foldl
    (fun acc data =>
      { acc with
          chunks := acc.chunks ++
            [{ id := acc.nextId, docId := data.docId,
               chunkIndex := data.chunkIndex, content := data.content,
               tokenCount := data.tokenCount, embedding := data.embedding }],
          nextId := acc.nextId + 1 })
    db

/-- `RagRepository.get_documents_by_folder` (no status filter), ordered by
`file_name`. -/
def docNameLE (a b : Doc) : Prop := lexLEb a.fileName.data b.fileName.data = true

instance : DecidableRel docNameLE := fun a b =>
  inferInstanceAs (Decidable (lexLEb a.fileName.data b.fileName.data = true))

instance : IsTotal Doc docNameLE := ⟨fun _ _ => lexLEb_total _ _⟩

instance : IsTrans Doc docNameLE := ⟨fun _ _ _ => lexLEb_trans _ _ _⟩

def get_documents_by_folder (db : Db) (folderPath : String) : List Doc :=
  List.insertionSort docNameLE
    (db.documents.filter (fun d => d.folderPath = folderPath))

/-- `RagRepository.get_chunk_count_by_document`. -/
def get_chunk_count_by_document (db : Db) (docId : Nat) : Nat :=
  (db.chunks.filter (fun c => c.docId = docId)).length

/-- `RagRepository.create_conversation`. -/
def create_conversation (db : Db) (title folderPath : Option String) :
    Db × Conversation :=
  let c : Conversation :=
    { id := db.nextId, title := title, folderPath := folderPath, isActive := true }
  ({ db with conversations := db.conversations ++ [c], nextId := db.nextId + 1 }, c)

/-- `RagRepository.get_conversation_by_id` (also the lookup half of
`get_conversation_with_messages`). -/
def get_conversation_by_id (db : Db) (convId : Nat) : Option Conversation :=
  db.conversations.find? (fun c => c.id = convId)

/-- `RagRepository.update_conversation_title`. -/
def update_conversation_title (db : Db) (convId : Nat) (title : String) : Db :=
  { db with
      conversations := db.conversations.map (fun c =>
        if c.id = convId then { c with title := some title } else c) }

/-- The `conversation.folder_path = normalized_path` assignment in
`RagService.chat`, flushed through the session. -/
def update_conversation_folder (db : Db) (convId : Nat) (folderPath : String) : Db :=
  { db with
      conversations := db.conversations.map (fun c =>
        if c.id = convId then { c with folderPath := some folderPath } else c) }

/-- The `SELECT coalesce(max(sequence), 0) + 1` read in
`RagRepository.add_message`. -/
def maxSequence (db : Db) (convId : Nat) : Nat :=
  ((db.messages.filter (fun m => m.convId = convId)).map
    (fun m => m.sequence)).foldl max 0

/-- `RagRepository.add_message`: append a message with the next sequence
number for its conversation. -/
def add_message (db : Db) (convId : Nat) (role content : String)
    (sources : List Nat) (tokenCount : Option Nat) : Db × Message :=
  let m : Message :=
    { id := db.nextId, convId := convId, sequence := maxSequence db convId + 1,
      role := role, content := content, sources := sources,
      tokenCount := tokenCount }
  ({ db with messages := db.messages ++ [m], nextId := db.nextId + 1 }, m)

/-- `RagRepository.get_messages_by_conversation`, ordered by `sequence` (this
is also the order of the `RagConversation.messages` relationship). -/
def msgSeqLE (a b : Message) : Prop := a.sequence ≤ b.sequence

instance : DecidableRel msgSeqLE := fun a b =>
  inferInstanceAs (Decidable (a.sequence ≤ b.sequence))

instance : IsTotal Message msgSeqLE := ⟨fun _ _ => Nat.le_total _ _⟩

instance : IsTrans Message msgSeqLE := ⟨fun _ _ _ => Nat.le_trans⟩

def get_messages_by_conversation (db : Db) (convId : Nat) : List Message :=
  List.insertionSort msgSeqLE
    (db.messages.filter (fun m => m.convId = convId))

/-! ## Vector search (`RagRepository.vector_search`)

The SQL join row, before the Python post-processing loop.  `dist` is the
value of `c.embedding <=> $1::vector` computed by the store's cosine-distance
operator, with `none` for `NaN`.  Postgres treats `NaN` as greater than every
number, both in the `>=` threshold comparison and in `ORDER BY`. -/

structure SqlRow where
  chunkId : Nat
  content : String
  chunkIndex : Nat
  tokenCount : Nat
  documentId : Nat
  fileName : String
  filePath : String
  dist : Option ℚ
  deriving DecidableEq

/-- A returned search row, after the Python loop dropped `NaN` similarities:
`similarity` is the real number `1 - dist`. -/
structure SearchResult where
  chunkId : Nat
  content : String
  chunkIndex : Nat
  tokenCount : Nat
  documentId : Nat
  fileName : String
  filePath : String
  similarity : ℚ
  deriving DecidableEq

/-- The SQL `WHERE` clause applied to one joined `(chunk, document)` pair:
`d.status = 'completed' AND c.embedding IS NOT NULL AND (folder filter when a
non-empty folder was supplied) AND 1 - (c.embedding <=> $1) >= threshold`.
A `NaN` similarity passes the `>=` comparison (Postgres orders `NaN` above
all numbers), which is why the Python loop re-checks with `math.isnan`. -/
def simGeThreshold (sim : Option ℚ) (threshold : ℚ) : Bool :=
  match sim with
  | none => true
  | some s => decide (threshold ≤ s)

def folderOk (folderPath : Option String) (d : Doc) : Bool :=
  match folderPath with
  | none => true
  | some p => if p = "" then true else d.folderPath = p

/-- The `SELECT` list of the vector-search query for one joined pair. -/
def mkSqlRow (c : Chunk) (d : Doc) (dv : Option ℚ) : SqlRow :=
  { chunkId := c.id, content := c.content, chunkIndex := c.chunkIndex,
    tokenCount := c.tokenCount, documentId := d.id, fileName := d.fileName,
    filePath := d.filePath, dist := dv }

/-- The dictionary built by the Python loop for one non-`NaN` row. -/
def mkSearchResult (c : Chunk) (d : Doc) (sim : ℚ) : SearchResult :=
  { chunkId := c.id, content := c.content, chunkIndex := c.chunkIndex,
    tokenCount := c.tokenCount, documentId := d.id, fileName := d.fileName,
    filePath := d.filePath, similarity := sim }

def joinRow (distFn : List ℚ → List ℚ → Option ℚ) (q : List ℚ)
    (folderPath : Option String) (threshold : ℚ) (c : Chunk) (d : Doc) :
    Option SqlRow :=
  if c.docId = d.id then
    match c.embedding with
    | none => none
    | some e =>
      let dv := distFn q e
      if d.status = "completed" ∧ folderOk folderPath d = true ∧
          simGeThreshold (dv.map oneSub) threshold = true then
        some (mkSqlRow c d dv)
      else none
  else none

/-- The rows satisfying the SQL `WHERE` clause, in join order. -/
def eligibleRows (distFn : List ℚ → List ℚ → Option ℚ) (db : Db) (q : List ℚ)
    (folderPath : Option String) (threshold : ℚ) : List SqlRow :=
  db.chunks.flatMap (fun c =>
    db.documents.filterMap (fun d => joinRow distFn q folderPath threshold c d))

/-- `ORDER BY c.embedding <=> $1` (ascending distance, `NaN` last). -/
def rowLE (a b : SqlRow) : Prop := distLEb a.dist b.dist = true

instance : DecidableRel rowLE := fun a b =>
  inferInstanceAs (Decidable (distLEb a.dist b.dist = true))

instance : IsTotal SqlRow rowLE := ⟨fun _ _ => distLEb_total _ _⟩

instance : IsTrans SqlRow rowLE := ⟨fun _ _ _ => distLEb_trans _ _ _⟩

/-- The Python result loop: `float(row["similarity"])`, skipping the row when
`math.isnan(similarity)`. -/
def resultOfRow (r : SqlRow) : Option SearchResult :=
  match r.dist with
  | none => none
  | some dv =>
    some { chunkId := r.chunkId, content := r.content,
           chunkIndex := r.chunkIndex, tokenCount := r.tokenCount,
           documentId := r.documentId, fileName := r.fileName,
           filePath := r.filePath, similarity := oneSub dv }

/-- `RagRepository.vector_search`: SQL filter, order by distance, `LIMIT`,
then the Python loop that drops `NaN` similarities. -/
def vector_search (distFn : List ℚ → List ℚ → Option ℚ) (db : Db)
    (embedding : List ℚ) (folderPath : Option String) (limit : Nat)
    (threshold : ℚ) : List SearchResult :=
  ((List.insertionSort rowLE
      (eligibleRows distFn db embedding folderPath threshold)).take limit).filterMap
    resultOfRow

/-! ## Embedding client (`app/services/rag/embedding_service.py`)

The Ollama embeddings endpoint is a parameter
`provider : String → Option (List ℚ)`; `none` models any raised exception
(HTTP error, missing key, connection failure). -/

/-- `EmbeddingService.embed_text`: raises (`none`) on empty/whitespace-only
text, otherwise one provider call. -/
def embed_text (provider : String → Option (List ℚ)) (text : String) :
    Option (List ℚ) :=
  if strBlank text then none else provider text

/-- The per-text body of the `embed_batch` loop: inside `try`, a non-blank
text is embedded (`embed_text`) and a blank text gets a zero vector; the
`except` arm turns any provider failure into a zero vector as well. -/
def embedOneInBatch (provider : String → Option (List ℚ)) (text : String) :
    List ℚ :=
  if strBlank text then List.replicate 768 0
  else
    match provider text with
    | some v => v
    | none => List.replicate 768 0

/-- The `for i in range(0, len(texts), batch_size)` loop of `embed_batch`:
each slice of `batchSize = k + 1` texts is embedded per-text and the batches
are concatenated in order. -/
def embedBatchGo (provider : String → Option (List ℚ)) (k : Nat) :
    List String → List (List ℚ)
  | [] => []
  | t :: ts =>
    ((t :: ts).take (k + 1)).map (embedOneInBatch provider) ++
      embedBatchGo provider k ((t :: ts).drop (k + 1))
termination_by ts => ts.length
decreasing_by simp; omega

/-- `EmbeddingService.embed_batch` (default `batch_size` 10).  Python's
`range` rejects a zero step, so the model is stated for positive batch
sizes; `batchSize - 1` re-expresses the slice width `batchSize` as `k + 1`
for termination. -/
def embed_batch (provider : String → Option (List ℚ)) (texts : List String)
    (batchSize : Nat) : List (List ℚ) :=
  embedBatchGo provider (batchSize - 1) texts

/-! ## Filesystem and folder validation
(`IngestionService.normalize_folder_path` / `list_folder_files`)

The filesystem is a parameter: `resolve` models
`Path(p).expanduser().resolve()`, `documentsRoot` the already-resolved
configured root (`settings.documents_root`), and `entries` the directory
listing of that root. -/

structure FsEntry where
  name : String
  isFile : Bool
  size : Nat
  deriving DecidableEq

structure Fs where
  documentsRoot : String
  resolve : String → String
  rootExists : Bool
  rootIsDir : Bool
  entries : List FsEntry

/-- Python `Path(name).suffix`: the substring from the last dot, provided
that dot is neither the first nor the last character of the name. -/
def pathSuffix (name : String) : String :=
  match (name.data.reverse.takeWhile (fun c => ¬ c = '.')) with
  | rest =>
    if rest.length = name.data.length ∨ rest.length = 0 ∨
        name.data.length - rest.length = 1 then ""
    else String.mk ('.' :: rest.reverse)

def SUPPORTED_EXTENSIONS : List String :=
  [".pdf", ".docx", ".pptx", ".xlsx", ".txt", ".md"]

/-- Python `str.lower()`, written on the character list so that concrete
instances evaluate by kernel reduction. -/
def lowerStr (s : String) : String := String.mk (s.data.map Char.toLower)

/-- Python `s[1:]` (used to strip the leading dot of a suffix). -/
def dropFirstChar (s : String) : String := String.mk (s.data.drop 1)

/-- `IngestionService.normalize_folder_path`: the caller-supplied path (when
truthy) must resolve to exactly the configured documents root, which must
exist and be a directory. -/
def normalize_folder_path (fs : Fs) (folderPath : Option String) :
    Except String String :=
  let requested :=
    match folderPath with
    | some p => if p = "" then fs.documentsRoot else fs.resolve p
    | none => fs.documentsRoot
  if ¬ requested = fs.documentsRoot then
    Except.error ("Folder path must be the documents root: " ++ fs.documentsRoot)
  else if ¬ fs.rootExists then
    Except.error ("Documents folder does not exist: " ++ fs.documentsRoot)
  else if ¬ fs.rootIsDir then
    Except.error ("Documents path is not a directory: " ++ fs.documentsRoot)
  else Except.ok fs.documentsRoot

/-- The file record built by `list_folder_files` for one directory entry. -/
structure FileInfo where
  name : String
  path : String
  fileType : String
  size : Nat
  deriving DecidableEq

def fileNameLE (a b : FileInfo) : Prop := lexLEb a.name.data b.name.data = true

instance : DecidableRel fileNameLE := fun a b =>
  inferInstanceAs (Decidable (lexLEb a.name.data b.name.data = true))

instance : IsTotal FileInfo fileNameLE := ⟨fun _ _ => lexLEb_total _ _⟩

instance : IsTrans FileInfo fileNameLE := ⟨fun _ _ _ => lexLEb_trans _ _ _⟩

/-- `IngestionService.list_folder_files`: validate the folder, keep regular
files whose lower-cased suffix is supported, and sort by name. -/
def list_folder_files (fs : Fs) (folderPath : String) :
    Except String (List FileInfo) :=
  match normalize_folder_path fs (some folderPath) with
  | Except.error e => Except.error e
  | Except.ok normalized =>
    Except.ok (List.insertionSort fileNameLE
      ((fs.entries.filter (fun en =>
          en.isFile && SUPPORTED_EXTENSIONS.contains (lowerStr (pathSuffix en.name)))).map
        (fun en =>
          { name := en.name, path := normalized ++ "/" ++ en.name,
            fileType := dropFirstChar (lowerStr (pathSuffix en.name)),
            size := en.size })))

/-! ## Ingestion pipeline (`app/services/rag/ingestion_service.py`)

The external collaborators of one ingestion: SHA-256 file hashing
(`_compute_file_hash`), MarkItDown conversion (`_convert_to_markdown`,
failing with a message), the recursive text splitter inside
`_chunk_markdown`, the tiktoken tokenizer, and the embedding provider. -/

structure Oracles where
  hash : String → String
  convert : String → Except String String
  splitText : String → List String
  tokenize : String → Nat
  provider : String → Option (List ℚ)

/-- `IngestionService._chunk_markdown`: split the text and build the chunk
rows with contiguous zero-based indices and tokenizer counts. -/
def chunk_markdown (O : Oracles) (content : String) (documentId : Nat) :
    List ChunkData :=
  (O.splitText content).enum.map (fun p =>
    { docId := documentId, chunkIndex := p.1, content := p.2,
      tokenCount := O.tokenize p.2, embedding := none })

/-- The head of `IngestionService._ingest_single_file`: hash the file, delete
any existing document with the same file name (cascading its chunks), and
create the fresh document in status `processing`. -/
def ingestPrelude (O : Oracles) (db : Db) (f : FileInfo) (folderPath : String) :
    Db × Doc :=
  let fileHash := O.hash f.path
  let db1 :=
    match get_document_by_name db f.name with
    | some existing => (delete_document db existing.id).1
    | none => db
  create_document db1 f.name f.path f.fileType f.size fileHash folderPath
    none "processing"

/-- `IngestionService._ingest_single_file`: prelude, then the `try` block
(convert, persist text, chunk, embed, batch-insert, complete); any failure
sets the document to `failed` with the caught message and re-raises. -/
def ingest_single_file (O : Oracles) (db : Db) (f : FileInfo)
    (folderPath : String) : Db × Except String Unit :=
  let pre := ingestPrelude O db f folderPath
  let db1 := pre.1
  let doc := pre.2
  match O.convert f.path with
  | Except.error e =>
    (update_document_status db1 doc.id "failed" (some e), Except.error e)
  | Except.ok markdownContent =>
    let db2 := update_document_content db1 doc.id markdownContent
    let chunks := chunk_markdown O markdownContent doc.id
    if chunks.isEmpty then
      (update_document_status db2 doc.id "failed"
        (some "No chunks generated from document"),
       Except.error "No chunks generated from document")
    else
      let chunkTexts := chunks.map (fun c => c.content)
      let embeddings := embed_batch O.provider chunkTexts 10
      let withEmb :=
        List.zipWith (fun c e => { c with embedding := some e }) chunks embeddings
      let db3 := create_chunks_batch db2 withEmb
      let db4 := update_document_status db3 doc.id "completed" none
      (db4, Except.ok ())

/-- Whether ingesting one file succeeds or raises, as a function of the
conversion and splitting collaborators alone (the store operations in
`_ingest_single_file` do not raise). -/
def fileOutcome (O : Oracles) (f : FileInfo) : Except String Unit :=
  match O.convert f.path with
  | Except.error e => Except.error e
  | Except.ok markdownContent =>
    if (O.splitText markdownContent).isEmpty then
      Except.error "No chunks generated from document"
    else Except.ok ()

/-- The events yielded by `IngestionService.ingest_folder`. -/
inductive Event where
  | progress (total processed : Nat) (currentFile : String)
  | fileError (file error : String) (total processed : Nat)
  | complete (total processed : Nat)
  deriving DecidableEq

/-- The `for idx, file_info in enumerate(files)` loop of `ingest_folder`:
a progress event before each file, then the ingestion attempt, then an error
event naming the file when the attempt raised; the loop always continues. -/
def ingestLoop (O : Oracles) (folderPath : String) (total : Nat) :
    Nat → Db → List FileInfo → Db × List Event
  | _, db, [] => (db, [])
  | idx, db, f :: rest =>
    let step := ingest_single_file O db f folderPath
    let evs :=
      Event.progress total idx f.name ::
        (match step.2 with
         | Except.error e => [Event.fileError f.name e total idx]
         | Except.ok _ => [])
    let tail := ingestLoop O folderPath total (idx + 1) step.1 rest
    (tail.1, evs ++ tail.2)

/-- `IngestionService.ingest_folder`: validate, list, and either emit a
single completion event (no eligible files) or run the loop and emit the
final completion event. -/
def ingest_folder (O : Oracles) (fs : Fs) (db : Db) (folderPath : String) :
    Except String (Db × List Event) :=
  match normalize_folder_path fs (some folderPath) with
  | Except.error e => Except.error e
  | Except.ok normalized =>
    match list_folder_files fs normalized with
    | Except.error e => Except.error e
    | Except.ok files =>
      if files.length = 0 then Except.ok (db, [Event.complete 0 0])
      else
        let run := ingestLoop O normalized files.length 0 db files
        Except.ok (run.1, run.2 ++ [Event.complete files.length files.length])

/-- One entry of `IngestionService.get_document_status`. -/
structure StatusEntry where
  id : Nat
  fileName : String
  status : String
  chunkCount : Nat
  errorMessage : Option String
  deriving DecidableEq

/-- `IngestionService.get_document_status`: validate the folder, then report
status, chunk count and error message per document. -/
def get_document_status (fs : Fs) (db : Db) (folderPath : String) :
    Except String (List StatusEntry) :=
  match normalize_folder_path fs (some folderPath) with
  | Except.error e => Except.error e
  | Except.ok normalized =>
    Except.ok ((get_documents_by_folder db normalized).map (fun d =>
      { id := d.id, fileName := d.fileName, status := d.status,
        chunkCount := get_chunk_count_by_document db d.id,
        errorMessage := d.errorMessage }))

/-! ## Chat agent (`app/services/rag/chat_agent.py`)

The Ollama chat endpoint is a parameter
`chatProvider : List ChatMsg → Option String`, with `none` for any raised
exception. -/

structure ChatMsg where
  role : String
  content : String
  deriving DecidableEq

/-- One retrieved source as assembled by `_retrieve_node`. -/
structure Source where
  documentName : String
  chunkContent : String
  relevanceScore : ℚ
  chunkId : Nat
  documentId : Nat
  deriving DecidableEq

/-- `RagChatAgent._retrieve_node`: embed the query and run `vector_search`
with `limit = top_k` (and the default similarity threshold 0); any exception
degrades to an empty source list. -/
def retrieveNode (embedProvider : String → Option (List ℚ))
    (distFn : List ℚ → List ℚ → Option ℚ) (db : Db) (query : String)
    (folderPath : Option String) (topK : Nat) : List Source :=
  match embed_text embedProvider query with
  | none => []
  | some queryEmbedding =>
    (vector_search distFn db queryEmbedding folderPath topK 0).map (fun row =>
      { documentName := row.fileName, chunkContent := row.content,
        relevanceScore := row.similarity, chunkId := row.chunkId,
        documentId := row.documentId })

def noSourcesContext : String :=
  "No relevant documents found in the database. " ++
    "Please provide a general response or ask for clarification."

/-- `RagChatAgent._augment_node`: a fixed context when there are no sources,
otherwise the numbered per-source blocks joined by the fixed delimiter. -/
def augmentNode (sources : List Source) : String :=
  if sources.isEmpty then noSourcesContext
  else
    String.intercalate "\n\n---\n\n"
      (sources.enum.map (fun p =>
        "[Document " ++ toString (p.1 + 1) ++ ": " ++ p.2.documentName ++ "]\n"
          ++ p.2.chunkContent))

def systemPrompt : String :=
  "You are a helpful AI assistant that answers questions based on the provided documents."

def fallbackResponse : String :=
  "I apologize, but I encountered an error generating a response. " ++
    "Please try again."

/-- The final user turn of `_generate_node`, combining the augmented context
and the original query. -/
def userPrompt (context query : String) : String :=
  "CONTEXT FROM DOCUMENTS:\n" ++ context ++ "\n\nUSER QUESTION:\n" ++ query

/-- `RagChatAgent._generate_node`: fixed system instruction, the prior
conversation history role-preserving, one final user turn; any provider
exception degrades to the fixed apologetic fallback answer. -/
def generateNode (chatProvider : List ChatMsg → Option String)
    (history : List ChatMsg) (context query : String) : String :=
  let msgs :=
    { role := "system", content := systemPrompt } ::
      (history ++ [{ role := "user", content := userPrompt context query }])
  match chatProvider msgs with
  | some response => response
  | none => fallbackResponse

/-- The agent's answer plus sources. -/
structure ChatResult where
  message : String
  sources : List Source
  deriving DecidableEq

/-- `RagChatAgent.chat`: run retrieve, augment and generate sequentially on
the shared state and return the final response with the retrieved sources. -/
def agentChat (embedProvider : String → Option (List ℚ))
    (chatProvider : List ChatMsg → Option String)
    (distFn : List ℚ → List ℚ → Option ℚ) (db : Db) (query : String)
    (history : List ChatMsg) (folderPath : Option String) (topK : Nat) :
    ChatResult :=
  let sources := retrieveNode embedProvider distFn db query folderPath topK
  let context := augmentNode sources
  let answer := generateNode chatProvider history context query
  { message := answer, sources := sources }

/-! ## Service facade (`app/services/rag/rag_service.py`) -/

/-- One source of the HTTP chat response (`ChatSource`). -/
structure ChatSource where
  documentName : String
  chunkContent : String
  relevanceScore : ℚ
  deriving DecidableEq

/-- `ChatResponse` of `RagService.chat`. -/
structure ChatResponse where
  conversationId : Nat
  message : String
  sources : List ChatSource
  deriving DecidableEq

/-- Python truthiness of an optional string (`None` and `""` are falsy). -/
def strFalsy : Option String → Bool
  | none => true
  | some s => s = ""

/-- `folder_path or conversation.folder_path` in `RagService.chat`. -/
def chosenFolder (folderPath : Option String)
    (conversationFolder : Option String) : Option String :=
  match folderPath with
  | some p => if p = "" then conversationFolder else some p
  | none => conversationFolder

/-- The title derived for a new conversation: the message truncated to 50
characters with an ellipsis when it was longer. -/
def deriveTitle (message : String) : String :=
  String.mk (message.data.take 50) ++ (if message.length > 50 then "..." else "")

/-- The conversation lookup/creation head of `RagService.chat`: an existing
conversation id must resolve (else a not-found error), otherwise a new
conversation is created against the validated folder. -/
def chatLookup (fs : Fs) (db : Db) (conversationId : Option Nat)
    (folderPath : Option String) : Except String (Db × Conversation) :=
  match conversationId with
  | some cid =>
    match get_conversation_by_id db cid with
    | none => Except.error ("Conversation not found: " ++ toString cid)
    | some conv => Except.ok (db, conv)
  | none =>
    match normalize_folder_path fs folderPath with
    | Except.error e => Except.error e
    | Except.ok np => Except.ok (create_conversation db none (some np))

/-- The tail of `RagService.chat` after folder validation: run the agent,
persist the user and assistant messages, derive a title for a fresh
conversation, and build the response. -/
def chatPersistAndRespond (embedProvider : String → Option (List ℚ))
    (chatProvider : List ChatMsg → Option String)
    (distFn : List ℚ → List ℚ → Option ℚ) (db2 : Db) (conv : Conversation)
    (message : String) (history : List ChatMsg) (normalizedPath : String) :
    Db × ChatResponse :=
  let result :=
    agentChat embedProvider chatProvider distFn db2 message history
      (some normalizedPath) 5
  let db3 := (add_message db2 conv.id "user" message [] none).1
  let sourceIds := result.sources.map (fun s => s.chunkId)
  let db4 :=
    (add_message db3 conv.id "assistant" result.message sourceIds none).1
  let db5 :=
    if strFalsy conv.title ∧ history.length = 0 then
      update_conversation_title db4 conv.id (deriveTitle message)
    else db4
  (db5,
    { conversationId := conv.id, message := result.message,
      sources := result.sources.map (fun s =>
        { documentName := s.documentName, chunkContent := s.chunkContent,
          relevanceScore := s.relevanceScore }) })

/-- `RagService.chat`: look up or create the conversation, validate the
folder scope, run the agent on the prior history, persist the user and
assistant messages, derive a title for a fresh conversation, and answer. -/
def ragServiceChat (fs : Fs) (embedProvider : String → Option (List ℚ))
    (chatProvider : List ChatMsg → Option String)
    (distFn : List ℚ → List ℚ → Option ℚ) (db : Db) (message : String)
    (conversationId : Option Nat) (folderPath : Option String) :
    Except String (Db × ChatResponse) :=
  match chatLookup fs db conversationId folderPath with
  | Except.error e => Except.error e
  | Except.ok (db1, conv) =>
    match normalize_folder_path fs (chosenFolder folderPath conv.folderPath) with
    | Except.error e => Except.error e
    | Except.ok normalizedPath =>
      if strFalsy conv.folderPath = false ∧ conv.folderPath ≠ some normalizedPath then
        Except.error "Conversation folder does not match the configured documents root"
      else
        let db2 :=
          if strFalsy conv.folderPath then
            update_conversation_folder db1 conv.id normalizedPath
          else db1
        let history : List ChatMsg :=
          match conversationId with
          | some _ =>
            (get_messages_by_conversation db2 conv.id).map (fun m =>
              { role := m.role, content := m.content })
          | none => []
        Except.ok (chatPersistAndRespond embedProvider chatProvider distFn
          db2 conv message history normalizedPath)

/-! ## The store's cosine-distance operator

The `<=>` operator lives in the pgvector extension, not in this repository.
Modelled from the spec: similarity is `1 - cosine_distance`, cosine distance
is `1 - dot(a, b) / (|a| * |b|)`, and a zero-magnitude comparison yields a
value that is not a real number (`none`, the model's `NaN`).  The square
root is taken only where it is rational (`none` otherwise), which covers
every concrete instance used below. -/

def sumSq (v : List ℚ) : ℚ := (v.map (fun x => x * x)).sum

def dotProd (a b : List ℚ) : ℚ := (List.zipWith (fun x y => x * y) a b).sum

def natSqrtExact (n : Nat) : Option Nat :=
  (List.range (n + 1)).find? (fun k => k * k = n)

def ratSqrtExact (q : ℚ) : Option ℚ :=
  match natSqrtExact q.num.toNat, natSqrtExact q.den with
  | some ns, some ds => if ds = 0 then none else some ((ns : ℚ) / (ds : ℚ))
  | _, _ => none

def cosineDistance (a b : List ℚ) : Option ℚ :=
  if sumSq a = 0 ∨ sumSq b = 0 then none
  else
    match ratSqrtExact (sumSq a * sumSq b) with
    | some s => if s = 0 then none else some (1 - dotProd a b / s)
    | none => none

/-! ## Lemmas about the embedding client -/

theorem embedBatchGo_eq (provider : String → Option (List ℚ)) (k : Nat) :
    ∀ n texts, texts.length ≤ n →
      embedBatchGo provider k texts = texts.map (embedOneInBatch provider) := by
  intro n
  induction n with
  | zero =>
    intro texts h
    match texts with
    | [] => simp [embedBatchGo]
    | t :: ts => exact absurd h (by simp)
  | succ n ih =>
    intro texts h
    match texts with
    | [] => simp [embedBatchGo]
    | t :: ts =>
      rw [embedBatchGo, ih ((t :: ts).drop (k + 1)) (by simp at h ⊢; omega),
        ← List.map_append, List.take_append_drop]

/-- `embed_batch` embeds every text independently, in order. -/
theorem embed_batch_eq_map (provider : String → Option (List ℚ))
    (texts : List String) (batchSize : Nat) :
    embed_batch provider texts batchSize = texts.map (embedOneInBatch provider) :=
  embedBatchGo_eq provider (batchSize - 1) texts.length texts le_rfl

/-- Claim C3: for every input list of texts (including lists where every
element is empty or whitespace-only), `embed_batch` returns one vector per
input text, in input order, and never aborts; each text that is blank or
whose provider call raises contributes a zero vector of length 768. -/
theorem embed_batch_total_with_fallback (provider : String → Option (List ℚ))
    (texts : List String) (batchSize : Nat) (_hbs : 0 < batchSize) :
    (embed_batch provider texts batchSize).length = texts.length ∧
    embed_batch provider texts batchSize = texts.map (embedOneInBatch provider) ∧
    (∀ (i : Nat) (t : String), texts[i]? = some t →
      (strBlank t = true ∨ provider t = none) →
      (embed_batch provider texts batchSize)[i]? =
        some (List.replicate 768 (0 : ℚ))) := by
  refine ⟨?_, embed_batch_eq_map provider texts batchSize, ?_⟩
  · rw [embed_batch_eq_map]
    exact List.length_map _ _
  · intro i t hit hbad
    rw [embed_batch_eq_map, List.getElem?_map, hit]
    have hz : embedOneInBatch provider t = List.replicate 768 0 := by
      rcases hbad with hb | hp
      · simp [embedOneInBatch, hb]
      · by_cases hb : strBlank t <;> simp [embedOneInBatch, hb, hp]
    rw [Option.map_some', hz]

def c3Provider : String → Option (List ℚ) :=
  fun t => if t = "ok" then some [1, 2] else none

theorem embed_batch_total_with_fallback_witness :
    0 < 10 ∧
    ((embed_batch c3Provider ["ok", " ", "boom"] 10).length =
        (["ok", " ", "boom"] : List String).length ∧
      embed_batch c3Provider ["ok", " ", "boom"] 10 =
        (["ok", " ", "boom"] : List String).map (embedOneInBatch c3Provider) ∧
      (∀ (i : Nat) (t : String), (["ok", " ", "boom"] : List String)[i]? = some t →
        (strBlank t = true ∨ c3Provider t = none) →
        (embed_batch c3Provider ["ok", " ", "boom"] 10)[i]? =
          some (List.replicate 768 (0 : ℚ)))) :=
  ⟨by decide,
    embed_batch_total_with_fallback c3Provider ["ok", " ", "boom"] 10 (by decide)⟩

/-! ## Lemmas about message sequencing -/

theorem foldl_max_range_one : ∀ n : Nat, (List.range' 1 n).foldl max 0 = n := by
  intro n
  induction n with
  | zero => rfl
  | succ n ih =>
    rw [List.range'_concat, List.foldl_append, ih]
    simp [Nat.max_def]
    omega

theorem maxSequence_of_range (db : Db) (cid n : Nat)
    (h : ((db.messages.filter (fun m => m.convId = cid)).map
      (fun m => m.sequence)) = List.range' 1 n) :
    maxSequence db cid = n := by
  unfold maxSequence
  rw [h]
  exact foldl_max_range_one n

/-- `k` calls of `add_message` on one conversation (as `RagService.chat`
performs two per turn). -/
def addMessagesFor (db : Db) (convId : Nat)
    (entries : List (String × String)) : Db :=
  entries.foldl
    (fun acc rc => (add_message acc convId rc.1 rc.2 [] none).1) db

theorem addMessagesFor_seq (cid : Nat) :
    ∀ (entries : List (String × String)) (db : Db) (n : Nat),
      ((db.messages.filter (fun m => m.convId = cid)).map
        (fun m => m.sequence)) = List.range' 1 n →
      (((addMessagesFor db cid entries).messages.filter
          (fun m => m.convId = cid)).map (fun m => m.sequence)) =
        List.range' 1 (n + entries.length) := by
  intro entries
  induction entries with
  | nil => intro db n h; simpa [addMessagesFor] using h
  | cons e es ih =>
    intro db n h
    have hstep :
        (((add_message db cid e.1 e.2 [] none).1.messages.filter
            (fun m => m.convId = cid)).map (fun m => m.sequence)) =
          List.range' 1 (n + 1) := by
      rw [add_message]
      simp only [List.filter_append, List.map_append]
      rw [h]
      have hmax := maxSequence_of_range db cid n h
      simp [hmax, List.range'_concat]
      omega
    have := ih (add_message db cid e.1 e.2 [] none).1 (n + 1) hstep
    rw [addMessagesFor] at this ⊢
    simp only [List.foldl_cons] at this ⊢
    rw [this]
    congr 1
    simp only [List.length_cons]
    omega

/-- Claim C5: for every conversation, the sequence numbers assigned by
`add_message` are gapless increasing integers starting at 1 — after `k`
appends to a fresh conversation the persisted sequences are exactly
`1..k` — and no two persisted messages share a
`(conversation_id, sequence)` pair. -/
theorem add_message_gapless_sequences (db : Db) (cid : Nat)
    (entries : List (String × String))
    (hfresh : db.messages.filter (fun m => m.convId = cid) = []) :
    (((addMessagesFor db cid entries).messages.filter
        (fun m => m.convId = cid)).map (fun m => m.sequence)) =
      List.range' 1 entries.length ∧
    ((addMessagesFor db cid entries).messages.filter
        (fun m => m.convId = cid)).Pairwise
      (fun a b => ¬ (a.convId = b.convId ∧ a.sequence = b.sequence)) := by
  have h0 : ((db.messages.filter (fun m => m.convId = cid)).map
      (fun m => m.sequence)) = List.range' 1 0 := by
    rw [hfresh]; rfl
  have hseq := addMessagesFor_seq cid entries db 0 h0
  simp only [Nat.zero_add] at hseq
  refine ⟨hseq, ?_⟩
  have hnodup : (((addMessagesFor db cid entries).messages.filter
      (fun m => m.convId = cid)).map (fun m => m.sequence)).Nodup := by
    rw [hseq]
    exact List.nodup_range' _ _
  rw [List.Nodup, List.pairwise_map] at hnodup
  exact hnodup.imp (fun hne hpair => hne hpair.2)

theorem add_message_gapless_sequences_witness :
    emptyDb.messages.filter (fun m => m.convId = 0) = [] ∧
    ((((addMessagesFor emptyDb 0 [("user", "hi"), ("assistant", "ok")]).messages.filter
        (fun m => m.convId = 0)).map (fun m => m.sequence)) =
      List.range' 1 ([("user", "hi"), ("assistant", "ok")] : List (String × String)).length ∧
    ((addMessagesFor emptyDb 0 [("user", "hi"), ("assistant", "ok")]).messages.filter
        (fun m => m.convId = 0)).Pairwise
      (fun a b => ¬ (a.convId = b.convId ∧ a.sequence = b.sequence))) :=
  ⟨by decide,
    add_message_gapless_sequences emptyDb 0 [("user", "hi"), ("assistant", "ok")]
      (by decide)⟩

/-! ## Lemmas about re-ingestion -/

theorem unique_by_name {l : List Doc}
    (h : l.Pairwise (fun a b => ¬ a.fileName = b.fileName)) :
    ∀ d e : Doc, d ∈ l → e ∈ l → d.fileName = e.fileName → d = e := by
  induction l with
  | nil => intro d e hd; simp at hd
  | cons x xs ih =>
    rw [List.pairwise_cons] at h
    intro d e hd he hn
    rcases List.mem_cons.mp hd with hdx | hdxs <;>
      rcases List.mem_cons.mp he with hex | hexs
    · rw [hdx, hex]
    · exact absurd (hdx ▸ hn) (h.1 e hexs)
    · exact absurd (hex ▸ hn.symm) (h.1 d hdxs)
    · exact ih h.2 d e hdxs hexs hn

/-- Claim C4: when a file is ingested and a document with the same file name
exists, the prior document is deleted first with all of its chunks (no
orphaned chunks remain) and a fresh document is created in status
`processing` with no chunks of its own — an overwrite, not a merge. -/
theorem reingest_overwrites (O : Oracles) (db : Db) (f : FileInfo)
    (folderPath : String) (db' : Db) (doc : Doc)
    (h : ingestPrelude O db f folderPath = (db', doc))
    (hnames : db.documents.Pairwise (fun a b => ¬ a.fileName = b.fileName))
    (hdocIds : ∀ d ∈ db.documents, d.id < db.nextId)
    (hchunkIds : ∀ c ∈ db.chunks, c.docId < db.nextId)
    (hown : ∀ c ∈ db.chunks, ∃ d ∈ db.documents, c.docId = d.id) :
    doc ∈ db'.documents ∧ doc.fileName = f.name ∧ doc.status = "processing" ∧
    (∀ d ∈ db.documents, d.fileName = f.name →
      d ∉ db'.documents ∧ ∀ c ∈ db'.chunks, ¬ c.docId = d.id) ∧
    (∀ c ∈ db'.chunks, ∃ d2 ∈ db'.documents, c.docId = d2.id) ∧
    (∀ c ∈ db'.chunks, ¬ c.docId = doc.id) := by
  unfold ingestPrelude at h
  cases hfind : get_document_by_name db f.name with
  | none =>
    rw [hfind] at h
    unfold create_document at h
    rcases Prod.mk.injEq .. ▸ h with ⟨hdb, hdoc⟩
    have hnone := List.find?_eq_none.mp hfind
    subst hdb hdoc
    refine ⟨List.mem_append_right _ (List.mem_singleton.mpr rfl), rfl, rfl,
      ?_, ?_, ?_⟩
    · intro d hd hn
      exact absurd (by simpa using hn) (by simpa using hnone d hd)
    · intro c hc
      rcases hown c hc with ⟨d2, hd2, heq⟩
      exact ⟨d2, List.mem_append_left _ hd2, heq⟩
    · intro c hc
      exact Nat.ne_of_lt (hchunkIds c hc)
  | some ex =>
    rw [hfind] at h
    have hexmem : ex ∈ db.documents := List.mem_of_find?_eq_some hfind
    have hexname : ex.fileName = f.name := by
      simpa using List.find?_some hfind
    have hany : db.documents.any (fun d => d.id = ex.id) = true :=
      List.any_eq_true.mpr ⟨ex, hexmem, by simp⟩
    simp only [delete_document, create_document, hany, if_true] at h
    rcases Prod.mk.injEq .. ▸ h with ⟨hdb, hdoc⟩
    subst hdb hdoc
    refine ⟨List.mem_append_right _ (List.mem_singleton.mpr rfl), rfl, rfl,
      ?_, ?_, ?_⟩
    · intro d hd hn
      have hdx : d = ex := unique_by_name hnames d ex hd hexmem (hn.trans hexname.symm)
      constructor
      · intro hmem
        rcases List.mem_append.mp hmem with hin | hin
        · have := (List.mem_filter.mp hin).2
          simp [hdx] at this
        · have : d.id = db.nextId := by
            rw [List.mem_singleton.mp hin]
          exact absurd this (Nat.ne_of_lt (hdocIds d hd))
      · intro c hc
        have := (List.mem_filter.mp hc).2
        simp at this
        rw [hdx]
        exact this
    · intro c hc
      rcases List.mem_filter.mp hc with ⟨hcmem, hcneq⟩
      simp at hcneq
      rcases hown c hcmem with ⟨d2, hd2, heq⟩
      refine ⟨d2, List.mem_append_left _ (List.mem_filter.mpr ⟨hd2, by
        simp
        rw [← heq]
        exact hcneq⟩), heq⟩
    · intro c hc
      rcases List.mem_filter.mp hc with ⟨hcmem, _⟩
      exact Nat.ne_of_lt (hchunkIds c hcmem)

def c4OldDoc : Doc :=
  { id := 0, fileName := "a.md", filePath := "r/a.md", fileType := "md",
    fileSize := 3, fileHash := "h0", folderPath := "r",
    markdownContent := none, status := "completed", errorMessage := none }

def c4Db : Db :=
  { documents := [c4OldDoc],
    chunks := [{ id := 1, docId := 0, chunkIndex := 0, content := "x",
                 tokenCount := 1, embedding := none }],
    conversations := [], messages := [], nextId := 2 }

def c4O : Oracles :=
  { hash := fun _ => "h1", convert := fun _ => Except.ok "t",
    splitText := fun s => [s], tokenize := fun _ => 1,
    provider := fun _ => none }

def c4File : FileInfo :=
  { name := "a.md", path := "r/a.md", fileType := "md", size := 4 }

def c4NewDoc : Doc :=
  { id := 2, fileName := "a.md", filePath := "r/a.md", fileType := "md",
    fileSize := 4, fileHash := "h1", folderPath := "r",
    markdownContent := none, status := "processing", errorMessage := none }

def c4Db' : Db :=
  { documents := [c4NewDoc], chunks := [], conversations := [],
    messages := [], nextId := 3 }

theorem reingest_overwrites_witness :
    ingestPrelude c4O c4Db c4File "r" = (c4Db', c4NewDoc) ∧
    (c4NewDoc ∈ c4Db'.documents ∧ c4NewDoc.fileName = c4File.name ∧
      c4NewDoc.status = "processing" ∧
      (∀ d ∈ c4Db.documents, d.fileName = c4File.name →
        d ∉ c4Db'.documents ∧ ∀ c ∈ c4Db'.chunks, ¬ c.docId = d.id) ∧
      (∀ c ∈ c4Db'.chunks, ∃ d2 ∈ c4Db'.documents, c.docId = d2.id) ∧
      (∀ c ∈ c4Db'.chunks, ¬ c.docId = c4NewDoc.id)) :=
  ⟨by decide,
    reingest_overwrites c4O c4Db c4File "r" c4Db' c4NewDoc (by decide)
      (by decide) (by decide) (by decide) (by decide)⟩

/-! ## Lemmas about per-file failure handling -/

theorem update_status_mem (db : Db) (d : Doc) (hd : d ∈ db.documents)
    (st : String) (em : Option String) :
    { d with status := st, errorMessage := em } ∈
      (update_document_status db d.id st em).documents := by
  unfold update_document_status
  refine List.mem_map.mpr ⟨d, hd, ?_⟩
  simp

theorem ingestPrelude_doc (O : Oracles) (db : Db) (f : FileInfo) (fp : String) :
    (ingestPrelude O db f fp).2 ∈ (ingestPrelude O db f fp).1.documents ∧
    (ingestPrelude O db f fp).2.fileName = f.name := by
  unfold ingestPrelude create_document
  cases hfind : get_document_by_name db f.name with
  | none =>
    simp only [hfind]
    exact ⟨List.mem_append_right _ (List.mem_singleton.mpr rfl), trivial⟩
  | some ex =>
    simp only [hfind]
    exact ⟨List.mem_append_right _ (List.mem_singleton.mpr rfl), trivial⟩

/-- Claim C7: any per-file failure after the document row is created sets
the document to `failed` with the caught message, and a chunking pass that
yields zero chunks raises exactly
`"No chunks generated from document"`. -/
theorem ingest_failure_marks_failed (O : Oracles) (db : Db) (f : FileInfo)
    (fp : String) (db' : Db) (r : Except String Unit)
    (h : ingest_single_file O db f fp = (db', r)) :
    (∀ e, r = Except.error e →
      ∃ d ∈ db'.documents, d.fileName = f.name ∧ d.status = "failed" ∧
        d.errorMessage = some e) ∧
    (∀ content, O.convert f.path = Except.ok content →
      O.splitText content = [] →
      r = Except.error "No chunks generated from document") := by
  obtain ⟨hpremem, hprename⟩ := ingestPrelude_doc O db f fp
  unfold ingest_single_file at h
  cases hconv : O.convert f.path with
  | error e0 =>
    rw [hconv] at h
    dsimp only at h
    rcases Prod.mk.injEq .. ▸ h with ⟨hdb, hr⟩
    subst hdb
    subst hr
    constructor
    · intro e he
      have he0 : e0 = e := by injection he
      refine ⟨{ (ingestPrelude O db f fp).2 with
          status := "failed", errorMessage := some e0 }, ?_, hprename, rfl,
        by rw [he0]⟩
      exact update_status_mem _ _ hpremem _ _
    · intro content hc
      cases hc
  | ok content =>
    rw [hconv] at h
    dsimp only at h
    by_cases hempty :
        (chunk_markdown O content (ingestPrelude O db f fp).2.id).isEmpty = true
    · rw [if_pos hempty] at h
      rcases Prod.mk.injEq .. ▸ h with ⟨hdb, hr⟩
      subst hdb
      subst hr
      have hpremem2 :
          { (ingestPrelude O db f fp).2 with markdownContent := some content } ∈
            (update_document_content (ingestPrelude O db f fp).1
              (ingestPrelude O db f fp).2.id content).documents := by
        unfold update_document_content
        refine List.mem_map.mpr ⟨(ingestPrelude O db f fp).2, hpremem, ?_⟩
        simp
      constructor
      · intro e he
        have he0 : "No chunks generated from document" = e := by injection he
        exact ⟨_, update_status_mem _ _ hpremem2 _ _, hprename, rfl,
          by rw [← he0]⟩
      · intro content2 hc2 hsplit
        rfl
    · rw [if_neg hempty] at h
      rcases Prod.mk.injEq .. ▸ h with ⟨hdb, hr⟩
      subst hdb
      subst hr
      constructor
      · intro e he
        cases he
      · intro content2 hc2 hsplit
        obtain rfl : content = content2 := by injection hc2
        exact absurd (by simp [chunk_markdown, hsplit]) hempty

deriving instance DecidableEq for Except

def c7O : Oracles :=
  { hash := fun _ => "h", convert := fun _ => Except.ok "t",
    splitText := fun _ => [], tokenize := fun _ => 1,
    provider := fun _ => none }

def c7File : FileInfo :=
  { name := "b.md", path := "r/b.md", fileType := "md", size := 2 }

def c7FailedDoc : Doc :=
  { id := 0, fileName := "b.md", filePath := "r/b.md", fileType := "md",
    fileSize := 2, fileHash := "h", folderPath := "r",
    markdownContent := some "t", status := "failed",
    errorMessage := some "No chunks generated from document" }

def c7Db' : Db :=
  { documents := [c7FailedDoc], chunks := [], conversations := [],
    messages := [], nextId := 1 }

theorem ingest_failure_marks_failed_witness :
    ingest_single_file c7O emptyDb c7File "r" =
      (c7Db', Except.error "No chunks generated from document") ∧
    ((∀ e, (Except.error "No chunks generated from document" :
        Except String Unit) = Except.error e →
      ∃ d ∈ c7Db'.documents, d.fileName = c7File.name ∧ d.status = "failed" ∧
        d.errorMessage = some e) ∧
    (∀ content, c7O.convert c7File.path = Except.ok content →
      c7O.splitText content = [] →
      (Except.error "No chunks generated from document" :
        Except String Unit) = Except.error "No chunks generated from document")) :=
  ⟨by decide,
    ingest_failure_marks_failed c7O emptyDb c7File "r" c7Db'
      (Except.error "No chunks generated from document") (by decide)⟩

/-! ## Lemmas about the folder sweep -/

/-- The events one file contributes to the sweep: a progress event before it
is processed, then an error event naming it when its ingestion raised. -/
def fileEvents (O : Oracles) (total : Nat) (p : Nat × FileInfo) : List Event :=
  Event.progress total p.1 p.2.name ::
    (match fileOutcome O p.2 with
     | Except.error e => [Event.fileError p.2.name e total p.1]
     | Except.ok _ => [])

theorem ingest_single_file_outcome (O : Oracles) (db : Db) (f : FileInfo)
    (fp : String) :
    (ingest_single_file O db f fp).2 = fileOutcome O f := by
  unfold ingest_single_file fileOutcome
  cases hconv : O.convert f.path with
  | error e => rfl
  | ok content =>
    dsimp only
    by_cases hempty :
        (chunk_markdown O content (ingestPrelude O db f fp).2.id).isEmpty = true
    · have hsplit : (O.splitText content).isEmpty = true := by
        have h1 := List.isEmpty_iff.mp hempty
        simp only [chunk_markdown, List.map_eq_nil_iff] at h1
        have h2 : (O.splitText content).length = 0 := by
          simpa [List.enum_length] using congrArg List.length h1
        simp [List.isEmpty_iff, List.length_eq_zero.mp h2]
      rw [if_pos hempty, if_pos hsplit]
    · have hsplit : ¬ (O.splitText content).isEmpty = true := by
        intro hs
        refine hempty ?_
        have := List.isEmpty_iff.mp hs
        simp [chunk_markdown, this]
      rw [if_neg hempty, if_neg hsplit]

theorem ingestLoop_events (O : Oracles) (fp : String) (total : Nat) :
    ∀ (files : List FileInfo) (idx : Nat) (db : Db),
      (ingestLoop O fp total idx db files).2 =
        ((files.enumFrom idx).map (fileEvents O total)).flatten := by
  intro files
  induction files with
  | nil => intro idx db; rfl
  | cons f rest ih =>
    intro idx db
    rw [ingestLoop]
    simp only [List.enumFrom_cons, List.map_cons, List.flatten_cons]
    rw [← ih (idx + 1) (ingest_single_file O db f fp).1]
    rw [fileEvents]
    simp only [← ingest_single_file_outcome O db f fp]

theorem normalize_ok (fs : Fs) (x : Option String) (v : String)
    (h : normalize_folder_path fs x = Except.ok v) :
    v = fs.documentsRoot ∧ fs.rootExists = true ∧ fs.rootIsDir = true := by
  unfold normalize_folder_path at h
  dsimp only at h
  split at h
  · cases h
  · split at h
    · cases h
    · split at h
      · cases h
      · rename_i h1 h2 h3
        injection h with h4
        exact ⟨h4.symm, not_not.mp (by simpa using h2),
          not_not.mp (by simpa using h3)⟩

theorem list_folder_files_again (fs : Fs) (p : String) (files : List FileInfo)
    (hroot : fs.resolve fs.documentsRoot = fs.documentsRoot)
    (h : list_folder_files fs p = Except.ok files) :
    list_folder_files fs fs.documentsRoot = Except.ok files := by
  unfold list_folder_files at h ⊢
  cases hn : normalize_folder_path fs (some p) with
  | error e => rw [hn] at h; cases h
  | ok np =>
    rw [hn] at h
    obtain ⟨hv, hex, hdir⟩ := normalize_ok fs (some p) np hn
    subst hv
    have hn2 : normalize_folder_path fs (some fs.documentsRoot) =
        Except.ok fs.documentsRoot := by
      unfold normalize_folder_path
      by_cases hr : fs.documentsRoot = ""
      · simp [hr, hex, hdir]
      · simp [hr, hroot, hex, hdir]
    rw [hn2]
    exact h

/-- Claim C6: a folder sweep lists the eligible files sorted by name and
emits, per file in order, one progress event `{total, processed = idx,
current_file}` before processing it and an error event naming it after a
per-file exception (the sweep continuing), followed by exactly one final
completion event with `processed = total`; with zero eligible files the
stream is exactly that single completion event. -/
theorem ingest_folder_event_stream (O : Oracles) (fs : Fs) (db : Db)
    (p : String) (files : List FileInfo)
    (hroot : fs.resolve fs.documentsRoot = fs.documentsRoot)
    (hf : list_folder_files fs p = Except.ok files) :
    files.Pairwise fileNameLE ∧
    ∃ db', ingest_folder O fs db p = Except.ok (db',
      (files.enum.map (fileEvents O files.length)).flatten ++
        [Event.complete files.length files.length]) := by
  constructor
  · have h2 := hf
    unfold list_folder_files at h2
    cases hn : normalize_folder_path fs (some p) with
    | error e => rw [hn] at h2; cases h2
    | ok np =>
      rw [hn] at h2
      have hfiles : files = List.insertionSort fileNameLE
          ((fs.entries.filter (fun en =>
            en.isFile && SUPPORTED_EXTENSIONS.contains
              (lowerStr (pathSuffix en.name)))).map (fun en =>
            { name := en.name, path := np ++ "/" ++ en.name,
              fileType := dropFirstChar (lowerStr (pathSuffix en.name)),
              size := en.size })) := by
        injection h2 with h3
        exact h3.symm
      rw [hfiles]
      exact List.sorted_insertionSort fileNameLE _
  · unfold ingest_folder
    cases hn : normalize_folder_path fs (some p) with
    | error e =>
      unfold list_folder_files at hf
      rw [hn] at hf
      cases hf
    | ok np =>
      obtain ⟨hv, _, _⟩ := normalize_ok fs (some p) np hn
      subst hv
      dsimp only
      rw [list_folder_files_again fs p files hroot hf]
      dsimp only
      by_cases hlen : files.length = 0
      · rw [if_pos hlen]
        obtain rfl : files = [] := List.length_eq_zero.mp hlen
        exact ⟨db, rfl⟩
      · rw [if_neg hlen]
        refine ⟨(ingestLoop O fs.documentsRoot files.length 0 db files).1, ?_⟩
        rw [ingestLoop_events O fs.documentsRoot files.length files 0 db]
        rfl

def c6Fs : Fs :=
  { documentsRoot := "r", resolve := fun _ => "r", rootExists := true,
    rootIsDir := true,
    entries := [{ name := "b.md", isFile := true, size := 5 },
                { name := "a.txt", isFile := true, size := 3 },
                { name := "c.exe", isFile := true, size := 1 },
                { name := "sub", isFile := false, size := 0 }] }

def c6O : Oracles :=
  { hash := fun _ => "h",
    convert := fun pa =>
      if pa = "r/a.txt" then Except.error "boom" else Except.ok "text",
    splitText := fun t => [t], tokenize := fun _ => 1,
    provider := fun _ => some [1] }

def c6Files : List FileInfo :=
  [{ name := "a.txt", path := "r/a.txt", fileType := "txt", size := 3 },
   { name := "b.md", path := "r/b.md", fileType := "md", size := 5 }]

theorem ingest_folder_event_stream_witness :
    c6Fs.resolve c6Fs.documentsRoot = c6Fs.documentsRoot ∧
    list_folder_files c6Fs "r" = Except.ok c6Files ∧
    (c6Files.Pairwise fileNameLE ∧
     ∃ db', ingest_folder c6O c6Fs emptyDb "r" = Except.ok (db',
       (c6Files.enum.map (fileEvents c6O c6Files.length)).flatten ++
         [Event.complete c6Files.length c6Files.length])) :=
  ⟨rfl, by decide,
    ingest_folder_event_stream c6O c6Fs emptyDb "r" c6Files rfl (by decide)⟩

/-! ## Lemmas about vector search -/

theorem vector_search_mem (distFn : List ℚ → List ℚ → Option ℚ) (db : Db)
    (q : List ℚ) (folderPath : Option String) (limit : Nat) (threshold : ℚ)
    (r : SearchResult)
    (hr : r ∈ vector_search distFn db q folderPath limit threshold) :
    ∃ c ∈ db.chunks, ∃ d ∈ db.documents, c.docId = d.id ∧
      d.status = "completed" ∧ folderOk folderPath d = true ∧
      ∃ e dv, c.embedding = some e ∧ distFn q e = some dv ∧
        threshold ≤ oneSub dv ∧
        r = { chunkId := c.id, content := c.content,
              chunkIndex := c.chunkIndex, tokenCount := c.tokenCount,
              documentId := d.id, fileName := d.fileName,
              filePath := d.filePath, similarity := oneSub dv } := by
  unfold vector_search at hr
  rcases List.mem_filterMap.mp hr with ⟨row, hrow, hres⟩
  have hrow2 : row ∈ List.insertionSort rowLE
      (eligibleRows distFn db q folderPath threshold) :=
    List.Sublist.mem hrow (List.take_sublist _ _)
  have hrow3 : row ∈ eligibleRows distFn db q folderPath threshold :=
    (List.perm_insertionSort rowLE _).mem_iff.mp hrow2
  rcases List.mem_flatMap.mp hrow3 with ⟨c, hc, hcrow⟩
  rcases List.mem_filterMap.mp hcrow with ⟨d, hd, hjoin⟩
  unfold joinRow at hjoin
  by_cases hid : c.docId = d.id
  · rw [if_pos hid] at hjoin
    cases hemb : c.embedding with
    | none => rw [hemb] at hjoin; cases hjoin
    | some e =>
      rw [hemb] at hjoin
      dsimp only at hjoin
      by_cases hcond : d.status = "completed" ∧
          folderOk folderPath d = true ∧
          simGeThreshold ((distFn q e).map oneSub) threshold = true
      · rw [if_pos hcond] at hjoin
        injection hjoin with hjoin2
        subst hjoin2
        unfold resultOfRow at hres
        simp only [mkSqlRow] at hres
        cases hdist : distFn q e with
        | none => rw [hdist] at hres; cases hres
        | some dv =>
          rw [hdist] at hres
          dsimp only at hres
          injection hres with hres2
          subst hres2
          have hthr : threshold ≤ oneSub dv := by
            have := hcond.2.2
            rw [hdist] at this
            simpa [simGeThreshold] using this
          exact ⟨c, hc, d, hd, hid, hcond.1, hcond.2.1, e, dv, hemb, hdist,
            hthr, rfl⟩
      · rw [if_neg hcond] at hjoin
        cases hjoin
  · rw [if_neg hid] at hjoin
    cases hjoin

/-- Claim C1: every row returned by `vector_search` comes from a chunk whose
owning document has status `completed` and whose embedding is non-null, and
its similarity is the real value `1 - dist` of an actual distance — rows
whose computed similarity is `NaN` are dropped, never surfaced. -/
theorem vector_search_only_completed_non_null
    (distFn : List ℚ → List ℚ → Option ℚ) (db : Db) (q : List ℚ)
    (folderPath : Option String) (limit : Nat) (threshold : ℚ)
    (r : SearchResult)
    (hr : r ∈ vector_search distFn db q folderPath limit threshold) :
    ∃ c ∈ db.chunks, ∃ d ∈ db.documents, c.docId = d.id ∧
      d.status = "completed" ∧ c.embedding.isSome = true ∧
      r.chunkId = c.id ∧ r.documentId = d.id ∧
      ∃ e dv, c.embedding = some e ∧ distFn q e = some dv ∧
        r.similarity = 1 - dv := by
  rcases vector_search_mem distFn db q folderPath limit threshold r hr with
    ⟨c, hc, d, hd, hid, hstatus, _, e, dv, hemb, hdist, _, hrow⟩
  subst hrow
  exact ⟨c, hc, d, hd, hid, hstatus, by rw [hemb]; rfl, rfl, rfl, e, dv,
    hemb, hdist, oneSub_eq dv⟩

def c1Doc : Doc :=
  { id := 0, fileName := "a.md", filePath := "r/a.md", fileType := "md",
    fileSize := 1, fileHash := "h", folderPath := "r",
    markdownContent := none, status := "completed", errorMessage := none }

def c1Chunk : Chunk :=
  { id := 1, docId := 0, chunkIndex := 0, content := "hello",
    tokenCount := 1, embedding := some [1] }

def c1Db : Db :=
  { documents := [c1Doc], chunks := [c1Chunk], conversations := [],
    messages := [], nextId := 2 }

def c1Dist : List ℚ → List ℚ → Option ℚ := fun _ _ => some 0

def c1Row : SearchResult :=
  { chunkId := 1, content := "hello", chunkIndex := 0, tokenCount := 1,
    documentId := 0, fileName := "a.md", filePath := "r/a.md",
    similarity := 1 }

theorem vector_search_only_completed_non_null_witness :
    c1Row ∈ vector_search c1Dist c1Db [1] none 5 0 ∧
    (∃ c ∈ c1Db.chunks, ∃ d ∈ c1Db.documents, c.docId = d.id ∧
      d.status = "completed" ∧ c.embedding.isSome = true ∧
      c1Row.chunkId = c.id ∧ c1Row.documentId = d.id ∧
      ∃ e dv, c.embedding = some e ∧ c1Dist [1] e = some dv ∧
        c1Row.similarity = 1 - dv) :=
  ⟨by decide,
    vector_search_only_completed_non_null c1Dist c1Db [1] none 5 0 c1Row
      (by decide)⟩

theorem cosineDistance_opposite :
    cosineDistance [(1 : ℚ)] [(-1 : ℚ)] = some 2 := by
  have h1 : sumSq [(1 : ℚ)] = 1 := by norm_num [sumSq]
  have h2 : sumSq [(-1 : ℚ)] = 1 := by norm_num [sumSq]
  have h3 : dotProd [(1 : ℚ)] [(-1 : ℚ)] = -1 := by norm_num [dotProd]
  have h4 : ratSqrtExact 1 = some 1 := by
    have h5 : natSqrtExact (1 : ℚ).num.toNat = some 1 := by decide
    have h6 : natSqrtExact (1 : ℚ).den = some 1 := by decide
    rw [ratSqrtExact, h5, h6]
    norm_num
  rw [cosineDistance, h1, h2, h3]
  rw [if_neg (by norm_num)]
  norm_num [h4]

def c2Doc : Doc :=
  { id := 0, fileName := "n.md", filePath := "r/n.md", fileType := "md",
    fileSize := 1, fileHash := "h", folderPath := "r",
    markdownContent := none, status := "completed", errorMessage := none }

def c2Chunk : Chunk :=
  { id := 1, docId := 0, chunkIndex := 0, content := "neg",
    tokenCount := 1, embedding := some [-1] }

def c2Db : Db :=
  { documents := [c2Doc], chunks := [c2Chunk], conversations := [],
    messages := [], nextId := 2 }

/-- Claim C2 counterexample: with the default minimum-similarity threshold 0,
`vector_search` is not free of similarity filtering.  The only chunk of the
store is eligible (completed document, non-null embedding) and its cosine
similarity against the query is `1 - 2 = -1 < 0`, so the SQL
`similarity >= 0` comparison drops it: the search returns the empty list
instead of the top-N eligible chunks. -/
theorem vector_search_threshold_zero_excludes_negative :
    c2Doc.status = "completed" ∧ c2Chunk.embedding = some [-1] ∧
    c2Chunk ∈ c2Db.chunks ∧ c2Doc ∈ c2Db.documents ∧
    c2Chunk.docId = c2Doc.id ∧
    cosineDistance [1] [-1] = some 2 ∧ (1 : ℚ) - 2 < 0 ∧
    vector_search cosineDistance c2Db [1] none 5 0 = [] := by
  refine ⟨rfl, rfl, by decide, by decide, rfl, cosineDistance_opposite,
    by norm_num, ?_⟩
  have hrow : eligibleRows cosineDistance c2Db [1] none 0 = [] := by
    unfold eligibleRows c2Db c2Chunk c2Doc
    simp only [List.flatMap_cons, List.flatMap_nil, List.filterMap_cons,
      List.filterMap_nil]
    rw [joinRow]
    rw [if_pos rfl]
    dsimp only
    rw [cosineDistance_opposite]
    rw [if_neg ?hc]
    case hc =>
      intro hcond
      have h6 := hcond.2.2
      simp only [Option.map_some', simGeThreshold, decide_eq_true_eq] at h6
      rw [oneSub_eq] at h6
      norm_num at h6
    rfl
  unfold vector_search
  rw [hrow]
  rfl

theorem row_mem_sorted (distFn : List ℚ → List ℚ → Option ℚ) (db : Db)
    (q : List ℚ) (folderPath : Option String) (threshold : ℚ) (c : Chunk)
    (d : Doc) (e : List ℚ) (dv : ℚ) (hc : c ∈ db.chunks)
    (hd : d ∈ db.documents) (hid : c.docId = d.id)
    (hstatus : d.status = "completed")
    (hfolder : folderOk folderPath d = true) (hemb : c.embedding = some e)
    (hdist : distFn q e = some dv) (hthr : threshold ≤ oneSub dv) :
    mkSqlRow c d (distFn q e) ∈
      List.insertionSort rowLE
        (eligibleRows distFn db q folderPath threshold) := by
  have hjoin : joinRow distFn q folderPath threshold c d =
      some (mkSqlRow c d (distFn q e)) := by
    rw [joinRow, if_pos hid, hemb]
    dsimp only
    rw [if_pos ⟨hstatus, hfolder, by
      simp [simGeThreshold, hdist, decide_eq_true hthr]⟩]
  exact (List.perm_insertionSort rowLE _).mem_iff.mpr
    (List.mem_flatMap.mpr ⟨c, hc, List.mem_filterMap.mpr ⟨d, hd, hjoin⟩⟩)

theorem result_from_take (distFn : List ℚ → List ℚ → Option ℚ) (db : Db)
    (q : List ℚ) (folderPath : Option String) (threshold : ℚ) (limit : Nat)
    (c : Chunk) (d : Doc) (e : List ℚ) (dv : ℚ)
    (hdist : distFn q e = some dv)
    (htk : mkSqlRow c d (distFn q e) ∈
      (List.insertionSort rowLE
        (eligibleRows distFn db q folderPath threshold)).take limit) :
    ∃ r ∈ vector_search distFn db q folderPath limit threshold,
      r.chunkId = c.id ∧ r.similarity = oneSub dv := by
  refine ⟨mkSearchResult c d (oneSub dv), ?_, rfl, rfl⟩
  unfold vector_search
  exact List.mem_filterMap.mpr ⟨mkSqlRow c d (distFn q e), htk,
    by simp [resultOfRow, mkSqlRow, hdist, mkSearchResult]⟩

theorem mem_take_of_rel {l : List SqlRow} {n : Nat} {x y : SqlRow}
    (hs : l.Pairwise rowLE) (hx : x ∈ l) (hy : y ∈ l.take n)
    (hxy : ¬ rowLE y x) : x ∈ l.take n := by
  by_cases hmem : x ∈ l.take n
  · exact hmem
  · exfalso
    have hx2 : x ∈ l.take n ++ l.drop n := by
      rw [List.take_append_drop]
      exact hx
    have hxd : x ∈ l.drop n := by
      rcases List.mem_append.mp hx2 with h | h
      · exact absurd h hmem
      · exact h
    have hp : (l.take n ++ l.drop n).Pairwise rowLE := by
      rw [List.take_append_drop]
      exact hs
    exact hxy ((List.pairwise_append.mp hp).2.2 y hy x hxd)

theorem filterMap_length_lt {α β : Type} (f : α → Option β) :
    ∀ l : List α, (l.filterMap f).length < l.length →
      ∃ a ∈ l, f a = none := by
  intro l
  induction l with
  | nil => intro h; simp at h
  | cons a as ih =>
    intro h
    cases hfa : f a with
    | none => exact ⟨a, List.mem_cons_self a as, hfa⟩
    | some b =>
      simp only [List.filterMap_cons, hfa, List.length_cons] at h
      obtain ⟨x, hx, hfx⟩ := ih (by omega)
      exact ⟨x, List.mem_cons_of_mem a hx, hfx⟩

/-- Claim C2 amended: with the default threshold 0, `vector_search` still
applies the SQL `similarity >= threshold` comparison, so it returns the
top-N eligible chunks of NON-NEGATIVE similarity by descending cosine
similarity: every returned row is eligible with similarity `>= 0`, the
result is sorted by descending similarity with at most `limit` rows, every
eligible chunk of non-negative real similarity is returned while the result
is not full, and no such chunk can be strictly more similar than a returned
row without being returned itself; eligible chunks with negative similarity
are excluded (see the counterexample). -/
theorem vector_search_threshold_zero_behavior
    (distFn : List ℚ → List ℚ → Option ℚ) (db : Db) (q : List ℚ)
    (folderPath : Option String) (limit : Nat) :
    (∀ r ∈ vector_search distFn db q folderPath limit 0,
      0 ≤ r.similarity ∧
      ∃ c ∈ db.chunks, ∃ d ∈ db.documents, c.docId = d.id ∧
        d.status = "completed" ∧ c.embedding.isSome = true) ∧
    (vector_search distFn db q folderPath limit 0).Pairwise
      (fun a b => b.similarity ≤ a.similarity) ∧
    (vector_search distFn db q folderPath limit 0).length ≤ limit ∧
    ((vector_search distFn db q folderPath limit 0).length < limit →
      ∀ c ∈ db.chunks, ∀ d ∈ db.documents, c.docId = d.id →
        d.status = "completed" → folderOk folderPath d = true →
        ∀ e dv, c.embedding = some e → distFn q e = some dv →
          0 ≤ 1 - dv →
          ∃ r ∈ vector_search distFn db q folderPath limit 0,
            r.chunkId = c.id ∧ r.similarity = 1 - dv) ∧
    (∀ c ∈ db.chunks, ∀ d ∈ db.documents, c.docId = d.id →
      d.status = "completed" → folderOk folderPath d = true →
      ∀ e dv, c.embedding = some e → distFn q e = some dv →
        0 ≤ 1 - dv →
        ∀ r ∈ vector_search distFn db q folderPath limit 0,
          r.similarity < 1 - dv →
          ∃ r2 ∈ vector_search distFn db q folderPath limit 0,
            r2.chunkId = c.id ∧ r2.similarity = 1 - dv) := by
  refine ⟨?_, ?_, ?_, ?_, ?_⟩
  · intro r hr
    rcases vector_search_mem distFn db q folderPath limit 0 r hr with
      ⟨c, hc, d, hd, hid, hstatus, _, e, dv, hemb, _, hthr, hrow⟩
    subst hrow
    exact ⟨hthr, c, hc, d, hd, hid, hstatus, by rw [hemb]; rfl⟩
  · have hsorted : (List.insertionSort rowLE
        (eligibleRows distFn db q folderPath 0)).Pairwise rowLE :=
      List.sorted_insertionSort rowLE _
    have htake : ((List.insertionSort rowLE
        (eligibleRows distFn db q folderPath 0)).take limit).Pairwise rowLE :=
      hsorted.sublist (List.take_sublist _ _)
    unfold vector_search
    refine List.pairwise_filterMap.mpr (htake.imp ?_)
    intro a b hab x hx y hy
    unfold resultOfRow at hx hy
    cases hda : a.dist with
    | none => rw [hda] at hx; simp at hx
    | some da =>
      cases hdb : b.dist with
      | none => rw [hdb] at hy; simp at hy
      | some dbv =>
        rw [hda] at hx
        rw [hdb] at hy
        dsimp only at hx hy
        simp only [Option.mem_def, Option.some.injEq] at hx hy
        have hle : da ≤ dbv := by
          have hab2 := hab
          unfold rowLE at hab2
          rw [hda, hdb] at hab2
          simpa [distLEb] using hab2
        rw [← hx, ← hy]
        dsimp only
        rw [oneSub_eq, oneSub_eq]
        linarith
  · unfold vector_search
    refine le_trans (List.length_filterMap_le _ _) ?_
    rw [List.length_take]
    exact min_le_left _ _
  · intro hlen c hc d hd hid hstatus hfolder e dv hemb hdist hpos
    have hthr : (0 : ℚ) ≤ oneSub dv := by rw [oneSub_eq]; exact hpos
    have hsortmem := row_mem_sorted distFn db q folderPath 0 c d e dv hc hd
      hid hstatus hfolder hemb hdist hthr
    have htk : mkSqlRow c d (distFn q e) ∈
        (List.insertionSort rowLE
          (eligibleRows distFn db q folderPath 0)).take limit := by
      by_cases hfull : (List.insertionSort rowLE
          (eligibleRows distFn db q folderPath 0)).length ≤ limit
      · rw [List.take_of_length_le hfull]
        exact hsortmem
      · have htlen : ((List.insertionSort rowLE
            (eligibleRows distFn db q folderPath 0)).take limit).length =
            limit := by
          rw [List.length_take]
          omega
        have hdrop : (((List.insertionSort rowLE
            (eligibleRows distFn db q folderPath 0)).take
              limit).filterMap resultOfRow).length <
            ((List.insertionSort rowLE
              (eligibleRows distFn db q folderPath 0)).take limit).length := by
          rw [htlen]
          exact hlen
        obtain ⟨y, hy, hynone⟩ := filterMap_length_lt resultOfRow _ hdrop
        have hyd : y.dist = none := by
          cases hyd2 : y.dist with
          | none => rfl
          | some dv2 =>
            unfold resultOfRow at hynone
            rw [hyd2] at hynone
            dsimp only at hynone
            cases hynone
        refine mem_take_of_rel (List.sorted_insertionSort rowLE _)
          hsortmem hy ?_
        unfold rowLE
        rw [hyd]
        simp [mkSqlRow, hdist, distLEb]
    obtain ⟨r, hrm, hrc, hrs⟩ := result_from_take distFn db q folderPath 0
      limit c d e dv hdist htk
    exact ⟨r, hrm, hrc, by rw [hrs, oneSub_eq]⟩
  · intro c hc d hd hid hstatus hfolder e dv hemb hdist hpos r hr hrlt
    have hthr : (0 : ℚ) ≤ oneSub dv := by rw [oneSub_eq]; exact hpos
    have hsortmem := row_mem_sorted distFn db q folderPath 0 c d e dv hc hd
      hid hstatus hfolder hemb hdist hthr
    unfold vector_search at hr
    rcases List.mem_filterMap.mp hr with ⟨yr, hyr, hyres⟩
    cases hyd : yr.dist with
    | none =>
      unfold resultOfRow at hyres
      rw [hyd] at hyres
      dsimp only at hyres
      cases hyres
    | some dr =>
      unfold resultOfRow at hyres
      rw [hyd] at hyres
      dsimp only at hyres
      injection hyres with hyres2
      have hsim : r.similarity = oneSub dr := by rw [← hyres2]
      have hdvdr : dv < dr := by
        rw [hsim, oneSub_eq] at hrlt
        linarith
      have htk := mem_take_of_rel (List.sorted_insertionSort rowLE _)
        hsortmem hyr (by
          unfold rowLE
          rw [hyd]
          simp only [mkSqlRow, hdist, distLEb, decide_eq_true_eq]
          exact not_le.mpr hdvdr)
      obtain ⟨r2, hr2m, hr2c, hr2s⟩ := result_from_take distFn db q
        folderPath 0 limit c d e dv hdist htk
      exact ⟨r2, hr2m, hr2c, by rw [hr2s, oneSub_eq]⟩

/-! ## Lemmas about the chat turn -/

theorem chatLookup_ok (fs : Fs) (db : Db) (cid : Option Nat)
    (fp : Option String) (db1 : Db) (conv : Conversation)
    (h : chatLookup fs db cid fp = Except.ok (db1, conv)) :
    db1.messages = db.messages ∧ db1.documents = db.documents ∧
    db1.chunks = db.chunks := by
  unfold chatLookup at h
  cases cid with
  | some c =>
    dsimp only at h
    cases hg : get_conversation_by_id db c with
    | none => rw [hg] at h; cases h
    | some cv =>
      rw [hg] at h
      injection h with h2
      obtain ⟨hdb, _⟩ := Prod.mk.injEq .. ▸ h2
      rw [← hdb]
      exact ⟨rfl, rfl, rfl⟩
  | none =>
    dsimp only at h
    cases hn : normalize_folder_path fs fp with
    | error e => rw [hn] at h; cases h
    | ok np =>
      rw [hn] at h
      injection h with h2
      obtain ⟨hdb, _⟩ := Prod.mk.injEq .. ▸ h2
      rw [← hdb]
      exact ⟨rfl, rfl, rfl⟩

theorem vector_search_congr (distFn : List ℚ → List ℚ → Option ℚ)
    (db db2 : Db) (hd : db2.documents = db.documents)
    (hc : db2.chunks = db.chunks) (q : List ℚ) (fp : Option String)
    (limit : Nat) (thr : ℚ) :
    vector_search distFn db2 q fp limit thr =
      vector_search distFn db q fp limit thr := by
  unfold vector_search eligibleRows
  rw [hd, hc]

theorem retrieveNode_congr (ep : String → Option (List ℚ))
    (distFn : List ℚ → List ℚ → Option ℚ) (db db2 : Db)
    (hd : db2.documents = db.documents) (hc : db2.chunks = db.chunks)
    (query : String) (fp : Option String) (topK : Nat) :
    retrieveNode ep distFn db2 query fp topK =
      retrieveNode ep distFn db query fp topK := by
  unfold retrieveNode
  cases embed_text ep query with
  | none => rfl
  | some emb =>
    dsimp only
    rw [vector_search_congr distFn db db2 hd hc]

theorem folder_if_messages (P : Prop) [Decidable P] (db : Db) (cid : Nat)
    (f : String) :
    (if P then update_conversation_folder db cid f else db).messages =
      db.messages := by
  split <;> rfl

theorem folder_if_documents (P : Prop) [Decidable P] (db : Db) (cid : Nat)
    (f : String) :
    (if P then update_conversation_folder db cid f else db).documents =
      db.documents := by
  split <;> rfl

theorem folder_if_chunks (P : Prop) [Decidable P] (db : Db) (cid : Nat)
    (f : String) :
    (if P then update_conversation_folder db cid f else db).chunks =
      db.chunks := by
  split <;> rfl

theorem title_if_messages (P : Prop) [Decidable P] (db : Db) (cid : Nat)
    (t : String) :
    (if P then update_conversation_title db cid t else db).messages =
      db.messages := by
  split <;> rfl

theorem chatPersistAndRespond_spec (ep : String → Option (List ℚ))
    (cp : List ChatMsg → Option String) (distFn : List ℚ → List ℚ → Option ℚ)
    (db2 : Db) (conv : Conversation) (message : String)
    (history : List ChatMsg) (np : String) :
    (chatPersistAndRespond ep cp distFn db2 conv message history
      np).2.conversationId = conv.id ∧
    (chatPersistAndRespond ep cp distFn db2 conv message history
      np).2.message =
      (agentChat ep cp distFn db2 message history (some np) 5).message ∧
    (chatPersistAndRespond ep cp distFn db2 conv message history
      np).2.sources =
      (agentChat ep cp distFn db2 message history (some np) 5).sources.map
        (fun s =>
          ({ documentName := s.documentName,
             chunkContent := s.chunkContent,
             relevanceScore := s.relevanceScore } : ChatSource)) ∧
    ∃ mu ma,
      (chatPersistAndRespond ep cp distFn db2 conv message history
        np).1.messages = db2.messages ++ [mu, ma] ∧
      mu.role = "user" ∧ mu.content = message ∧ mu.convId = conv.id ∧
      ma.role = "assistant" ∧
      ma.content =
        (agentChat ep cp distFn db2 message history (some np) 5).message ∧
      ma.convId = conv.id ∧
      ma.sources =
        (agentChat ep cp distFn db2 message history (some np) 5).sources.map
          (fun s => s.chunkId) := by
  refine ⟨rfl, rfl, rfl, (add_message db2 conv.id "user" message [] none).2,
    (add_message (add_message db2 conv.id "user" message [] none).1 conv.id
      "assistant"
      (agentChat ep cp distFn db2 message history (some np) 5).message
      ((agentChat ep cp distFn db2 message history (some np) 5).sources.map
        (fun (s : Source) => s.chunkId)) none).2,
    ?_, rfl, rfl, rfl, rfl, rfl, rfl, rfl⟩
  show (if strFalsy conv.title ∧ history.length = 0 then
      update_conversation_title _ conv.id (deriveTitle message)
    else _).messages = _
  rw [title_if_messages]
  exact List.append_assoc _ _ _

theorem chat_turn_core (ep : String → Option (List ℚ))
    (cp : List ChatMsg → Option String) (distFn : List ℚ → List ℚ → Option ℚ)
    (db : Db) (message : String) (db2 : Db) (conv : Conversation)
    (history : List ChatMsg) (np : String) (db' : Db) (resp : ChatResponse)
    (hm2 : db2.messages = db.messages)
    (h2 : chatPersistAndRespond ep cp distFn db2 conv message history np =
      (db', resp)) :
    ((strBlank message = true ∨ ep message = none) → resp.sources = []) ∧
    ((∀ ms, cp ms = none) → resp.message = fallbackResponse) ∧
    (∃ mu ma, db'.messages = db.messages ++ [mu, ma] ∧
      mu.role = "user" ∧ mu.content = message ∧
      mu.convId = resp.conversationId ∧ ma.role = "assistant" ∧
      ma.content = resp.message ∧ ma.convId = resp.conversationId) := by
  have hdb' := congrArg Prod.fst h2
  have hresp := congrArg Prod.snd h2
  dsimp only at hdb' hresp
  subst hdb'
  subst hresp
  obtain ⟨hcid, hmsg, hsrcs, mu, ma, hlist, hmur, hmuc, hmuv, hmar,
    hmac, hmav, hmas⟩ :=
    chatPersistAndRespond_spec ep cp distFn db2 conv message history np
  refine ⟨?_, ?_, mu, ma, ?_, hmur, hmuc, ?_, hmar, ?_, ?_⟩
  · intro hbad
    have hemb : embed_text ep message = none := by
      unfold embed_text
      rcases hbad with hb | hp
      · rw [if_pos hb]
      · by_cases hb2 : strBlank message = true
        · rw [if_pos hb2]
        · rw [if_neg hb2]
          exact hp
    rw [hsrcs]
    dsimp only [agentChat]
    unfold retrieveNode
    rw [hemb]
    rfl
  · intro hcp
    rw [hmsg]
    dsimp only [agentChat, generateNode]
    rw [hcp]
  · rw [hlist, hm2]
  · rw [hmuv, hcid]
  · rw [hmac, hmsg]
  · rw [hmav, hcid]

/-- Claim C8: a chat turn whose Retrieve stage throws degrades to an empty
source list, one whose Generate stage throws answers with the fixed
apologetic fallback string, and in every successful turn a well-formed
`{answer, sources}` response is returned with both the user and the
assistant message persisted to the conversation. -/
theorem chat_turn_degrades (fs : Fs) (ep : String → Option (List ℚ))
    (cp : List ChatMsg → Option String) (distFn : List ℚ → List ℚ → Option ℚ)
    (db : Db) (message : String) (conversationId : Option Nat)
    (folderPath : Option String) (db' : Db) (resp : ChatResponse)
    (h : ragServiceChat fs ep cp distFn db message conversationId folderPath =
      Except.ok (db', resp)) :
    ((strBlank message = true ∨ ep message = none) → resp.sources = []) ∧
    ((∀ ms, cp ms = none) → resp.message = fallbackResponse) ∧
    (∃ mu ma, db'.messages = db.messages ++ [mu, ma] ∧
      mu.role = "user" ∧ mu.content = message ∧
      mu.convId = resp.conversationId ∧ ma.role = "assistant" ∧
      ma.content = resp.message ∧ ma.convId = resp.conversationId) := by
  unfold ragServiceChat at h
  cases hlk : chatLookup fs db conversationId folderPath with
  | error e => rw [hlk] at h; cases h
  | ok pr =>
    obtain ⟨db1, conv⟩ := pr
    obtain ⟨hmsg1, hdoc1, hchk1⟩ :=
      chatLookup_ok fs db conversationId folderPath db1 conv hlk
    rw [hlk] at h
    dsimp only at h
    cases hn : normalize_folder_path fs
        (chosenFolder folderPath conv.folderPath) with
    | error e => rw [hn] at h; cases h
    | ok np =>
      rw [hn] at h
      dsimp only at h
      by_cases hmis : strFalsy conv.folderPath = false ∧
          conv.folderPath ≠ some np
      · rw [if_pos hmis] at h
        cases h
      · rw [if_neg hmis] at h
        injection h with h2
        have hm2 : (if strFalsy conv.folderPath = true then
            update_conversation_folder db1 conv.id np else db1).messages =
            db.messages := by
          rw [folder_if_messages]
          exact hmsg1
        exact chat_turn_core ep cp distFn db message _ conv _ np db' resp
          hm2 h2

def c8Fs : Fs :=
  { documentsRoot := "r", resolve := fun s => s, rootExists := true,
    rootIsDir := true, entries := [] }

def c8Ep : String → Option (List ℚ) := fun _ => none

def c8Cp : List ChatMsg → Option String := fun _ => none

def c8Dist : List ℚ → List ℚ → Option ℚ := fun _ _ => none

def c8Mu : Message :=
  { id := 1, convId := 0, sequence := 1, role := "user", content := "hi",
    sources := [], tokenCount := none }

def c8Ma : Message :=
  { id := 2, convId := 0, sequence := 2, role := "assistant",
    content := fallbackResponse, sources := [], tokenCount := none }

def c8Conv : Conversation :=
  { id := 0, title := some "hi", folderPath := some "r", isActive := true }

def c8Db' : Db :=
  { documents := [], chunks := [], conversations := [c8Conv],
    messages := [c8Mu, c8Ma], nextId := 3 }

def c8Resp : ChatResponse :=
  { conversationId := 0, message := fallbackResponse, sources := [] }

theorem chat_turn_degrades_witness :
    ragServiceChat c8Fs c8Ep c8Cp c8Dist emptyDb "hi" none none =
      Except.ok (c8Db', c8Resp) ∧
    (((strBlank "hi" = true ∨ c8Ep "hi" = none) → c8Resp.sources = []) ∧
     ((∀ ms, c8Cp ms = none) → c8Resp.message = fallbackResponse) ∧
     (∃ mu ma, c8Db'.messages = emptyDb.messages ++ [mu, ma] ∧
       mu.role = "user" ∧ mu.content = "hi" ∧
       mu.convId = c8Resp.conversationId ∧ ma.role = "assistant" ∧
       ma.content = c8Resp.message ∧ ma.convId = c8Resp.conversationId)) :=
  ⟨by decide,
    chat_turn_degrades c8Fs c8Ep c8Cp c8Dist emptyDb "hi" none none c8Db'
      c8Resp (by decide)⟩

/-! ## Folder-scope validation -/

def c9Fs : Fs :=
  { documentsRoot := "r", resolve := fun s => "/x" ++ s, rootExists := true,
    rootIsDir := true, entries := [] }

/-- Claim C9 counterexample: the empty string is a caller-supplied folder
path that does not resolve to the configured documents root (here `""`
resolves to `/x`, the root is `r`), yet folder operations accept it instead
of failing: the Python truthiness test in `normalize_folder_path` treats
`""` as "no folder supplied" and silently substitutes the configured root. -/
theorem folder_scope_empty_string_accepted :
    ¬ c9Fs.resolve "" = c9Fs.documentsRoot ∧
    list_folder_files c9Fs "" = Except.ok [] ∧
    get_document_status c9Fs emptyDb "" = Except.ok [] :=
  ⟨by decide, by decide, by decide⟩

theorem normalize_rejects (fs : Fs) (p : String) (hp : ¬ p = "")
    (hnp : ¬ fs.resolve p = fs.documentsRoot) :
    normalize_folder_path fs (some p) =
      Except.error ("Folder path must be the documents root: " ++
        fs.documentsRoot) := by
  unfold normalize_folder_path
  dsimp only
  rw [if_neg hp]
  rw [if_pos hnp]

/-- Claim C9 amended: every NON-EMPTY caller-supplied folder path that does
not resolve to the configured documents root makes listing, ingestion,
status retrieval and chat-on-a-new-conversation fail with an error (the
empty string is treated as "no folder supplied" and falls back to the root —
see the counterexample); and chatting in an existing conversation whose
recorded non-empty folder scope differs from the documents root fails
rather than silently switching the conversation's scope. -/
theorem folder_scope_validation (fs : Fs) :
    (∀ (O : Oracles) (db : Db) (p : String), ¬ p = "" →
      ¬ fs.resolve p = fs.documentsRoot →
      (∃ e, list_folder_files fs p = Except.error e) ∧
      (∃ e, ingest_folder O fs db p = Except.error e) ∧
      (∃ e, get_document_status fs db p = Except.error e) ∧
      (∀ (ep : String → Option (List ℚ)) (cp : List ChatMsg → Option String)
          (distFn : List ℚ → List ℚ → Option ℚ) (m : String), ∃ e,
        ragServiceChat fs ep cp distFn db m none (some p) =
          Except.error e)) ∧
    (∀ (db : Db) (cid : Nat) (conv : Conversation) (f : String)
        (ep : String → Option (List ℚ)) (cp : List ChatMsg → Option String)
        (distFn : List ℚ → List ℚ → Option ℚ) (m : String)
        (fp : Option String),
      get_conversation_by_id db cid = some conv →
      conv.folderPath = some f → ¬ f = "" → ¬ f = fs.documentsRoot →
      ∃ e, ragServiceChat fs ep cp distFn db m (some cid) fp =
        Except.error e) := by
  constructor
  · intro O db p hp hnp
    have hnorm := normalize_rejects fs p hp hnp
    refine ⟨⟨"Folder path must be the documents root: " ++ fs.documentsRoot, ?_⟩,
      ⟨"Folder path must be the documents root: " ++ fs.documentsRoot, ?_⟩,
      ⟨"Folder path must be the documents root: " ++ fs.documentsRoot, ?_⟩, ?_⟩
    · unfold list_folder_files
      rw [hnorm]
    · unfold ingest_folder
      rw [hnorm]
    · unfold get_document_status
      rw [hnorm]
    · intro ep cp distFn m
      refine ⟨"Folder path must be the documents root: " ++ fs.documentsRoot, ?_⟩
      unfold ragServiceChat chatLookup
      dsimp only
      rw [hnorm]
  · intro db cid conv f ep cp distFn m fp hg hf hf0 hfr
    unfold ragServiceChat
    have hlk : chatLookup fs db (some cid) fp = Except.ok (db, conv) := by
      unfold chatLookup
      dsimp only
      rw [hg]
    rw [hlk]
    dsimp only
    cases hn : normalize_folder_path fs (chosenFolder fp conv.folderPath) with
    | error e => exact ⟨e, rfl⟩
    | ok np =>
      dsimp only
      obtain ⟨hv, _, _⟩ := normalize_ok fs _ np hn
      subst hv
      have hcond : strFalsy conv.folderPath = false ∧
          ¬ conv.folderPath = some fs.documentsRoot := by
        constructor
        · rw [hf]
          simp [strFalsy, hf0]
        · rw [hf]
          intro hcontra
          injection hcontra with h2
          exact hfr h2
      rw [if_pos hcond]
      exact ⟨_, rfl⟩

def c9O : Oracles :=
  { hash := fun _ => "h", convert := fun _ => Except.ok "t",
    splitText := fun t => [t], tokenize := fun _ => 1,
    provider := fun _ => none }

def c9Ep : String → Option (List ℚ) := fun _ => some [1]

def c9Cp : List ChatMsg → Option String := fun _ => some "a"

def c9Dist : List ℚ → List ℚ → Option ℚ := fun _ _ => some 0

def c9Conv : Conversation :=
  { id := 0, title := none, folderPath := some "bad", isActive := true }

def c9ConvDb : Db :=
  { documents := [], chunks := [], conversations := [c9Conv],
    messages := [], nextId := 1 }

theorem folder_scope_validation_witness :
    (¬ "q" = "" ∧ ¬ c9Fs.resolve "q" = c9Fs.documentsRoot ∧
      (∃ e, list_folder_files c9Fs "q" = Except.error e) ∧
      (∃ e, ingest_folder c9O c9Fs emptyDb "q" = Except.error e) ∧
      (∃ e, get_document_status c9Fs emptyDb "q" = Except.error e) ∧
      (∃ e, ragServiceChat c9Fs c9Ep c9Cp c9Dist emptyDb "m" none
        (some "q") = Except.error e)) ∧
    (get_conversation_by_id c9ConvDb 0 = some c9Conv ∧
      c9Conv.folderPath = some "bad" ∧ ¬ "bad" = "" ∧
      ¬ "bad" = c9Fs.documentsRoot ∧
      ∃ e, ragServiceChat c9Fs c9Ep c9Cp c9Dist c9ConvDb "m" (some 0) none =
        Except.error e) := by
  constructor
  · obtain ⟨h1, h2, h3, h4⟩ :=
      (folder_scope_validation c9Fs).1 c9O emptyDb "q" (by decide) (by decide)
    exact ⟨by decide, by decide, h1, h2, h3, h4 c9Ep c9Cp c9Dist "m"⟩
  · exact ⟨by decide, by decide, by decide, by decide,
      (folder_scope_validation c9Fs).2 c9ConvDb 0 c9Conv "bad" c9Ep c9Cp
        c9Dist "m" none (by decide) (by decide) (by decide) (by decide)⟩

/-! ## The generation-failure frame property -/

theorem chat_sources_core (ep : String → Option (List ℚ))
    (cp : List ChatMsg → Option String) (distFn : List ℚ → List ℚ → Option ℚ)
    (db : Db) (message : String) (db2 : Db) (conv : Conversation)
    (history : List ChatMsg) (np : String) (db' : Db) (resp : ChatResponse)
    (hcp : ∀ ms, cp ms = none)
    (hm2 : db2.messages = db.messages) (hd2 : db2.documents = db.documents)
    (hc2 : db2.chunks = db.chunks)
    (h2 : chatPersistAndRespond ep cp distFn db2 conv message history np =
      (db', resp)) :
    resp.message = fallbackResponse ∧
    resp.sources = (retrieveNode ep distFn db message (some np) 5).map
      (fun s =>
        ({ documentName := s.documentName, chunkContent := s.chunkContent,
           relevanceScore := s.relevanceScore } : ChatSource)) ∧
    ∃ mu ma, db'.messages = db.messages ++ [mu, ma] ∧ ma.role = "assistant" ∧
      ma.sources = (retrieveNode ep distFn db message (some np) 5).map
        (fun s => s.chunkId) := by
  have hdb' := congrArg Prod.fst h2
  have hresp := congrArg Prod.snd h2
  dsimp only at hdb' hresp
  subst hdb'
  subst hresp
  obtain ⟨hcid, hmsg, hsrcs, mu, ma, hlist, hmur, hmuc, hmuv, hmar,
    hmac, hmav, hmas⟩ :=
    chatPersistAndRespond_spec ep cp distFn db2 conv message history np
  have hretr : (agentChat ep cp distFn db2 message history (some np) 5).sources
      = retrieveNode ep distFn db message (some np) 5 := by
    dsimp only [agentChat]
    exact retrieveNode_congr ep distFn db db2 hd2 hc2 message (some np) 5
  refine ⟨?_, ?_, mu, ma, ?_, hmar, ?_⟩
  · rw [hmsg]
    dsimp only [agentChat, generateNode]
    rw [hcp]
  · rw [hsrcs, hretr]
  · rw [hlist, hm2]
  · rw [hmas, hretr]

/-- Claim C10: when the Generate stage's chat-completion call throws, the
sources produced by the Retrieve stage are left untouched — the turn's
returned sources are exactly the retrieved sources in retrieval order
(projected into the response shape), the answer is the fallback string, and
the persisted assistant message records those chunk ids in its `sources`
field. -/
theorem generate_failure_preserves_sources (fs : Fs)
    (ep : String → Option (List ℚ)) (cp : List ChatMsg → Option String)
    (distFn : List ℚ → List ℚ → Option ℚ) (db : Db) (message : String)
    (conversationId : Option Nat) (folderPath : Option String) (db' : Db)
    (resp : ChatResponse) (hcp : ∀ ms, cp ms = none)
    (h : ragServiceChat fs ep cp distFn db message conversationId folderPath =
      Except.ok (db', resp)) :
    resp.message = fallbackResponse ∧
    resp.sources =
      (retrieveNode ep distFn db message (some fs.documentsRoot) 5).map
        (fun s =>
          ({ documentName := s.documentName, chunkContent := s.chunkContent,
             relevanceScore := s.relevanceScore } : ChatSource)) ∧
    ∃ mu ma, db'.messages = db.messages ++ [mu, ma] ∧ ma.role = "assistant" ∧
      ma.sources =
        (retrieveNode ep distFn db message (some fs.documentsRoot) 5).map
          (fun s => s.chunkId) := by
  unfold ragServiceChat at h
  cases hlk : chatLookup fs db conversationId folderPath with
  | error e => rw [hlk] at h; cases h
  | ok pr =>
    obtain ⟨db1, conv⟩ := pr
    obtain ⟨hmsg1, hdoc1, hchk1⟩ :=
      chatLookup_ok fs db conversationId folderPath db1 conv hlk
    rw [hlk] at h
    dsimp only at h
    cases hn : normalize_folder_path fs
        (chosenFolder folderPath conv.folderPath) with
    | error e => rw [hn] at h; cases h
    | ok np =>
      obtain ⟨hv, _, _⟩ := normalize_ok fs _ np hn
      subst hv
      rw [hn] at h
      dsimp only at h
      by_cases hmis : strFalsy conv.folderPath = false ∧
          conv.folderPath ≠ some fs.documentsRoot
      · rw [if_pos hmis] at h
        cases h
      · rw [if_neg hmis] at h
        injection h with h2
        have hm2 : (if strFalsy conv.folderPath = true then
            update_conversation_folder db1 conv.id fs.documentsRoot
            else db1).messages = db.messages := by
          rw [folder_if_messages]
          exact hmsg1
        have hd2 : (if strFalsy conv.folderPath = true then
            update_conversation_folder db1 conv.id fs.documentsRoot
            else db1).documents = db.documents := by
          rw [folder_if_documents]
          exact hdoc1
        have hc2 : (if strFalsy conv.folderPath = true then
            update_conversation_folder db1 conv.id fs.documentsRoot
            else db1).chunks = db.chunks := by
          rw [folder_if_chunks]
          exact hchk1
        exact chat_sources_core ep cp distFn db message _ conv _
          fs.documentsRoot db' resp hcp hm2 hd2 hc2 h2

def c10Fs : Fs :=
  { documentsRoot := "r", resolve := fun s => s, rootExists := true,
    rootIsDir := true, entries := [] }

def c10Doc : Doc :=
  { id := 0, fileName := "a.md", filePath := "r/a.md", fileType := "md",
    fileSize := 1, fileHash := "h", folderPath := "r",
    markdownContent := none, status := "completed", errorMessage := none }

def c10Chunk : Chunk :=
  { id := 1, docId := 0, chunkIndex := 0, content := "hello",
    tokenCount := 1, embedding := some [1] }

def c10Db : Db :=
  { documents := [c10Doc], chunks := [c10Chunk], conversations := [],
    messages := [], nextId := 2 }

def c10Ep : String → Option (List ℚ) := fun _ => some [1]

def c10Cp : List ChatMsg → Option String := fun _ => none

def c10Dist : List ℚ → List ℚ → Option ℚ := fun _ _ => some 0

def c10Mu : Message :=
  { id := 3, convId := 2, sequence := 1, role := "user",
    content := "What is X?", sources := [], tokenCount := none }

def c10Ma : Message :=
  { id := 4, convId := 2, sequence := 2, role := "assistant",
    content := fallbackResponse, sources := [1], tokenCount := none }

def c10Conv : Conversation :=
  { id := 2, title := some "What is X?", folderPath := some "r",
    isActive := true }

def c10Db' : Db :=
  { documents := [c10Doc], chunks := [c10Chunk], conversations := [c10Conv],
    messages := [c10Mu, c10Ma], nextId := 5 }

def c10Src : ChatSource :=
  { documentName := "a.md", chunkContent := "hello", relevanceScore := 1 }

def c10Resp : ChatResponse :=
  { conversationId := 2, message := fallbackResponse, sources := [c10Src] }

theorem generate_failure_preserves_sources_witness :
    (∀ ms, c10Cp ms = none) ∧
    ragServiceChat c10Fs c10Ep c10Cp c10Dist c10Db "What is X?" none none =
      Except.ok (c10Db', c10Resp) ∧
    (c10Resp.message = fallbackResponse ∧
     c10Resp.sources =
       (retrieveNode c10Ep c10Dist c10Db "What is X?"
         (some c10Fs.documentsRoot) 5).map
         (fun s =>
           ({ documentName := s.documentName, chunkContent := s.chunkContent,
              relevanceScore := s.relevanceScore } : ChatSource)) ∧
     ∃ mu ma, c10Db'.messages = c10Db.messages ++ [mu, ma] ∧
       ma.role = "assistant" ∧
       ma.sources =
         (retrieveNode c10Ep c10Dist c10Db "What is X?"
           (some c10Fs.documentsRoot) 5).map (fun s => s.chunkId)) :=
  ⟨fun _ => rfl, by decide,
    generate_failure_preserves_sources c10Fs c10Ep c10Cp c10Dist c10Db
      "What is X?" none none c10Db' c10Resp (fun _ => rfl) (by decide)⟩

def c2WDoc : Doc :=
  { id := 0, fileName := "w.md", filePath := "r/w.md", fileType := "md",
    fileSize := 1, fileHash := "h", folderPath := "r",
    markdownContent := none, status := "completed", errorMessage := none }

def c2WChunk : Chunk :=
  { id := 1, docId := 0, chunkIndex := 0, content := "w",
    tokenCount := 1, embedding := some [2] }

def c2WDb : Db :=
  { documents := [c2WDoc], chunks := [c2WChunk], conversations := [],
    messages := [], nextId := 2 }

def c2WDist : List ℚ → List ℚ → Option ℚ := fun _ _ => some 0

theorem vector_search_threshold_zero_behavior_witness :
    (∀ r ∈ vector_search c2WDist c2WDb [1] none 5 0,
      0 ≤ r.similarity ∧
      ∃ c ∈ c2WDb.chunks, ∃ d ∈ c2WDb.documents, c.docId = d.id ∧
        d.status = "completed" ∧ c.embedding.isSome = true) ∧
    (vector_search c2WDist c2WDb [1] none 5 0).Pairwise
      (fun a b => b.similarity ≤ a.similarity) ∧
    (vector_search c2WDist c2WDb [1] none 5 0).length ≤ 5 ∧
    ((vector_search c2WDist c2WDb [1] none 5 0).length < 5 →
      ∀ c ∈ c2WDb.chunks, ∀ d ∈ c2WDb.documents, c.docId = d.id →
        d.status = "completed" → folderOk none d = true →
        ∀ e dv, c.embedding = some e → c2WDist [1] e = some dv →
          0 ≤ 1 - dv →
          ∃ r ∈ vector_search c2WDist c2WDb [1] none 5 0,
            r.chunkId = c.id ∧ r.similarity = 1 - dv) ∧
    (∀ c ∈ c2WDb.chunks, ∀ d ∈ c2WDb.documents, c.docId = d.id →
      d.status = "completed" → folderOk none d = true →
      ∀ e dv, c.embedding = some e → c2WDist [1] e = some dv →
        0 ≤ 1 - dv →
        ∀ r ∈ vector_search c2WDist c2WDb [1] none 5 0,
          r.similarity < 1 - dv →
          ∃ r2 ∈ vector_search c2WDist c2WDb [1] none 5 0,
            r2.chunkId = c.id ∧ r2.similarity = 1 - dv) :=
  vector_search_threshold_zero_behavior c2WDist c2WDb [1] none 5
